import Mathlib

/-!
# Verification of the NYC 311 service-request analyzer

Shallow embedding of the program's core components:

* `DateTime` (multi-thread/include/DateTime.h) with its `sscanf`-based
  parser, packed 64-bit comparison key (src/src/ServiceRequest.cpp) and the
  field-by-field comparison variant (src/single_thread/ServiceRequest.cpp);
* the numeric field helpers `parseZip`, `parseInt16`, `parseU64`,
  `parseInt32`, `parseDouble` built on the C `strtoul`/`strtol`/`strtod`
  conversions;
* `ServiceRequest::fromFields` (identical in src/src and src/single_thread);
* the two CSV line decoders: `CsvReader::parseLine` (src/src/CsvReader.cpp)
  and `parseCSVLine` with `cleanString` post-processing
  (src/src/NYC311Analyzer.cpp and src/unnamed/part_002);
* the bulk loaders `CsvReader::readAll` and the `loadData` variant of
  src/unnamed/part_002 (with its `RECORD_LIMIT`);
* the scan filters `filterByCreatedDateRange` (DataStore variant and the
  global-state variant of src/unnamed/part_002) and `filterByLatLonBox`.

Machine integers are embedded as `Nat`/`Int` with explicit `% 2^w` at the
points where the C++ code performs a narrowing cast; `double` values are
embedded as exact rationals (the claims checked here never depend on
floating-point rounding, only on the exact value `0.0` and on order
comparisons); the infinity and NaN outcomes of `strtod` are recognised as
conversions of their own kind, since they have no rational counterpart.
-/

namespace NYC311

/-! ## Character classification (C locale `isspace` / `isdigit`) -/

/-- C `isspace` in the default locale: space, \t, \n, \v, \f, \r. -/
def cIsSpace (c : Char) : Bool :=
  c.toNat == 32 || c.toNat == 9 || c.toNat == 10 ||
  c.toNat == 11 || c.toNat == 12 || c.toNat == 13

/-- C `isdigit`: the characters `'0'`..`'9'` (codes 48..57). -/
def isDigitC (c : Char) : Bool :=
  48 ≤ c.toNat && c.toNat ≤ 57

/-! ## Decimal digit strings

`digitsToNat` is the accumulating base-10 conversion performed by
`strtoul`-style scanning; `natToDigits`/`padChars` is the `printf`
`%0wu`-style rendering used by `DateTime::toString` (and to describe the
input grammar of `DateTime::parse`). -/

/-- Value of a big-endian list of decimal digit characters, accumulated
left to right exactly as a textual base-10 scan does. -/
def digitsToNat (cs : List Char) : Nat :=
  cs.foldl (fun a c => 10 * a + (c.toNat - 48)) 0

/-- Big-endian decimal digit characters of `n` (empty for `n = 0`),
written with structural recursion on a fuel argument so that concrete
values compute by kernel reduction. -/
def natToDigitsAux : Nat → Nat → List Char
  | 0, _ => []
  | fuel + 1, n =>
    if n = 0 then [] else natToDigitsAux fuel (n / 10) ++ [Nat.digitChar (n % 10)]

/-- Big-endian decimal digit characters of `n` (empty for `n = 0`). -/
def natToDigits (n : Nat) : List Char :=
  natToDigitsAux n n

/-- Model of `printf("%0wu", n)`: decimal digits of `n`, left-padded with `'0'` to
width `w` (an all-zero field of width `w` when `n = 0`). -/
def padChars (w n : Nat) : List Char :=
  List.replicate (w - (natToDigits n).length) '0' ++ natToDigits n

/-! ## DateTime (multi-thread/include/DateTime.h) -/

/-- The compact date-time value.  In the C++ struct the fields are
`uint16_t year` and `uint8_t month day hour minute second`; they are
embedded as `Nat` together with the well-formedness bounds `dtWf` that the
machine-integer types enforce by construction. -/
structure DateTime where
  year   : Nat  := 0
  month  : Nat  := 0
  day    : Nat  := 0
  hour   : Nat  := 0
  minute : Nat  := 0
  second : Nat  := 0
  valid  : Bool := false
deriving DecidableEq, Repr

/-- The all-zero invalid sentinel: a default-constructed `DateTime`. -/
def dt0 : DateTime := {}

/-- Representation invariant carried by the C++ field types
(`uint16_t` year, `uint8_t` everything else). -/
def dtWf (a : DateTime) : Prop :=
  a.year < 65536 ∧ a.month < 256 ∧ a.day < 256 ∧
  a.hour < 256 ∧ a.minute < 256 ∧ a.second < 256

instance (a : DateTime) : Decidable (dtWf a) := by
  unfold dtWf; infer_instance

/-- Model of `DateTime::toKey`: pack the fields into one 64-bit key,
`year(16) month(8) day(8) hour(8) minute(8) second(8)` from MSB to LSB. -/
def DateTime.toKey (a : DateTime) : Nat :=
  a.year <<< 40 ||| a.month <<< 32 ||| a.day <<< 24 |||
  a.hour <<< 16 ||| a.minute <<< 8 ||| a.second

/-- Model of `DateTime::operator==` of src/src/ServiceRequest.cpp: validity flags
must agree, then the packed keys are compared. -/
def dtEqKey (a o : DateTime) : Bool :=
  if a.valid != o.valid then false
  else a.toKey == o.toKey

/-- Model of `DateTime::operator<` of src/src/ServiceRequest.cpp: an invalid value
sorts before all valid ones, valid values compare by packed key. -/
def dtLtKey (a o : DateTime) : Bool :=
  if !a.valid && !o.valid then false
  else if !a.valid then true
  else if !o.valid then false
  else a.toKey < o.toKey

/-- Model of `DateTime::operator==` of src/single_thread/ServiceRequest.cpp:
validity flags must agree, then the six fields are compared one by one. -/
def dtEqFields (a o : DateTime) : Bool :=
  if a.valid != o.valid then false
  else a.year == o.year && a.month == o.month && a.day == o.day &&
       a.hour == o.hour && a.minute == o.minute && a.second == o.second

/-- Model of `DateTime::operator<` of src/single_thread/ServiceRequest.cpp:
same invalid handling, then field-by-field lexicographic comparison. -/
def dtLtFields (a o : DateTime) : Bool :=
  if !a.valid && !o.valid then false
  else if !a.valid then true
  else if !o.valid then false
  else if a.year != o.year then a.year < o.year
  else if a.month != o.month then a.month < o.month
  else if a.day != o.day then a.day < o.day
  else if a.hour != o.hour then a.hour < o.hour
  else if a.minute != o.minute then a.minute < o.minute
  else decide (a.second < o.second)

/-- Model of `operator>=` is defined in both sources as `!(*this < o)`. -/
def dtGeKey (a o : DateTime) : Bool := !(dtLtKey a o)

/-- Model of `operator<=` is defined in both sources as `!(o < *this)`. -/
def dtLeKey (a o : DateTime) : Bool := !(dtLtKey o a)

/-! ## The `sscanf("%u/%u/%u %u:%u:%u %2s", ...)` scan of `DateTime::parse`

`%u` skips leading whitespace, accepts an optional sign and consumes the
maximal run of decimal digits (failing when that run is empty); the value
is stored into a 32-bit `unsigned`.  `%2s` skips whitespace and reads at
most two non-whitespace characters (at least one).  A literal character in
the format must match exactly. -/

/-- Value of a `%u` conversion stored into a 32-bit `unsigned`
(a minus sign negates in the unsigned type, i.e. modulo `2^32`). -/
def u32OfScan (neg : Bool) (v : Nat) : Nat :=
  if neg then (2 ^ 32 - v % 2 ^ 32) % 2 ^ 32 else v % 2 ^ 32

/-- One `%u` directive: whitespace skip, optional sign, a non-empty run of
decimal digits.  Returns the converted value and the unread remainder. -/
def scanU (cs : List Char) : Option (Nat × List Char) :=
  let cs1 := cs.dropWhile cIsSpace
  let neg := cs1.headD ' ' == '-'
  let cs2 := if cs1.headD ' ' == '-' || cs1.headD ' ' == '+' then cs1.tail else cs1
  let ds := cs2.takeWhile isDigitC
  if ds = [] then none
  else some (u32OfScan neg (digitsToNat ds), cs2.drop ds.length)

/-- A literal format character: must match the next input character. -/
def matchLit (c : Char) (cs : List Char) : Option (List Char) :=
  match cs with
  | d :: t => if d = c then some t else none
  | [] => none

/-- The `%2s` directive: whitespace skip, then at most two non-whitespace
characters, at least one. -/
def scanTok2 (cs : List Char) : Option (List Char × List Char) :=
  let cs1 := cs.dropWhile cIsSpace
  let tk := (cs1.takeWhile (fun c => !(cIsSpace c))).take 2
  if tk = [] then none else some (tk, cs1.drop tk.length)

/-- The seven values extracted by the `sscanf` of `DateTime::parse`:
month, day, year, hour, minute, second, meridiem token. -/
structure ScanResult where
  mm   : Nat
  dd   : Nat
  yyyy : Nat
  hh   : Nat
  mi   : Nat
  ss   : Nat
  tok  : List Char
deriving DecidableEq, Repr

/-- The full `"%u/%u/%u %u:%u:%u %2s"` scan (the literal `' '` directives
are subsumed by the whitespace skip that `%u` and `%2s` perform anyway).
Returns the six numbers and the meridiem token on success. -/
def scanDT (cs : List Char) : Option ScanResult :=
  (scanU cs).bind fun p1 =>
  (matchLit '/' p1.2).bind fun r1 =>
  (scanU r1).bind fun p2 =>
  (matchLit '/' p2.2).bind fun r2 =>
  (scanU r2).bind fun p3 =>
  (scanU p3.2).bind fun p4 =>
  (matchLit ':' p4.2).bind fun r4 =>
  (scanU r4).bind fun p5 =>
  (matchLit ':' p5.2).bind fun r5 =>
  (scanU r5).bind fun p6 =>
  (scanTok2 p6.2).bind fun pt =>
  some ⟨p1.1, p2.1, p3.1, p4.1, p5.1, p6.1, pt.1⟩

/-- Model of `to24h`: convert a 12-hour value plus meridiem flag to 24-hour form
(`12 AM → 0`, `12 PM → 12`, other AM unchanged, other PM `+12`).  The C++
return type is `uint8_t`, hence the `% 256` on the only branch that can
exceed a byte. -/
def to24h (h : Nat) (isPM : Bool) : Nat :=
  if !isPM then (if h = 12 then 0 else h)
  else (if h = 12 then 12 else (h + 12) % 256)

/-- Model of `DateTime::parse`: reject inputs shorter than 11 characters, run the
fixed-order scan, and on success store the scanned values through the
narrowing casts `uint8_t`/`uint16_t` (`% 256` / `% 65536`), converting the
hour with `to24h`; the meridiem is PM iff the token starts with `'P'` or
`'p'`.  Every failure path returns the default (all-zero, invalid) value. -/
def DateTime.parse (s : String) : DateTime :=
  if s.data.length < 11 then {}
  else
    match scanDT s.data with
    | none => {}
    | some r =>
      { year := r.yyyy % 65536, month := r.mm % 256, day := r.dd % 256,
        hour := to24h (r.hh % 256) (r.tok.headD ' ' == 'P' || r.tok.headD ' ' == 'p'),
        minute := r.mi % 256, second := r.ss % 256, valid := true }

/-- Model of `DateTime::toString`: `"(invalid)"` for invalid values, otherwise
`snprintf(buf, 20, "%04u-%02u-%02u %02u:%02u:%02u", ...)`; the 20-byte
buffer truncates the output to at most 19 characters. -/
def DateTime.toString (a : DateTime) : String :=
  if !a.valid then "(invalid)"
  else ((padChars 4 a.year ++ '-' :: padChars 2 a.month ++ '-' :: padChars 2 a.day ++
         ' ' :: padChars 2 a.hour ++ ':' :: padChars 2 a.minute ++
         ':' :: padChars 2 a.second).take 19).asString

/-! ## Numeric field helpers (src/src/ServiceRequest.cpp lines 9-59)

The helpers call `strtoul`/`strtol`/`strtoull`/`strtod` on the whole field
and fall back to a default when no characters were converted
(`end == s.c_str()`).  The C library conversions accept optional leading
whitespace and an optional sign before the digits; on a 64-bit target
`unsigned long`/`unsigned long long` are 64 bits wide and out-of-range
values saturate at the boundary of that 64-bit type (`ULONG_MAX`, resp.
`LONG_MAX`/`LONG_MIN`) before the narrowing cast truncates them. -/

/-- The subject-sequence scan shared by `strtoul`/`strtol` in base 10:
whitespace, optional sign, a non-empty digit run.  `none` models the
"no conversion, `end == begin`" outcome. -/
def scanIntText (cs : List Char) : Option (Bool × Nat) :=
  let cs1 := cs.dropWhile cIsSpace
  let neg := cs1.headD ' ' == '-'
  let cs2 := if cs1.headD ' ' == '-' || cs1.headD ' ' == '+' then cs1.tail else cs1
  let ds := cs2.takeWhile isDigitC
  if ds = [] then none else some (neg, digitsToNat ds)

/-- Model of `strtoul`/`strtoull` result on a 64-bit target: magnitudes beyond
`2^64 - 1` saturate at `ULONG_MAX`; otherwise a minus sign negates in the
unsigned type (modulo `2^64`). -/
def ulongOf (neg : Bool) (raw : Nat) : Nat :=
  if 2 ^ 64 ≤ raw then 2 ^ 64 - 1
  else if neg then (2 ^ 64 - raw) % 2 ^ 64
  else raw

/-- Model of `strtol` result on a 64-bit target: saturates at
`LONG_MAX = 2^63 - 1` / `LONG_MIN = -2^63`. -/
def slongOf (neg : Bool) (raw : Nat) : Int :=
  if neg then (if 2 ^ 63 ≤ raw then -(2 ^ 63) else -(raw : Int))
  else (if 2 ^ 63 ≤ raw then 2 ^ 63 - 1 else (raw : Int))

/-- Model of `static_cast<int16_t>` of a 64-bit value: reduce modulo `2^16` and
reinterpret the top bit as the sign. -/
def toInt16 (v : Int) : Int :=
  let m := v % 65536
  if m < 32768 then m else m - 65536

/-- Model of `static_cast<int32_t>` of a 64-bit value. -/
def toInt32 (v : Int) : Int :=
  let m := v % 4294967296
  if m < 2147483648 then m else m - 4294967296

/-- Model of `parseZip`: 0 on empty or non-numeric input, otherwise
`static_cast<uint32_t>(strtoul(...))`. -/
def parseZip (s : String) : Nat :=
  if s.data = [] then 0
  else
    match scanIntText s.data with
    | none => 0
    | some (neg, raw) => ulongOf neg raw % 2 ^ 32

/-- Model of `parseInt16` (council district): -1 on empty or non-numeric input,
otherwise `static_cast<int16_t>(strtol(...))`. -/
def parseInt16 (s : String) : Int :=
  if s.data = [] then -1
  else
    match scanIntText s.data with
    | none => -1
    | some (neg, raw) => toInt16 (slongOf neg raw)

/-- Model of `parseU64` (BBL, unique key): 0 on empty or non-numeric input,
otherwise `static_cast<uint64_t>(strtoull(...))`. -/
def parseU64 (s : String) : Nat :=
  if s.data = [] then 0
  else
    match scanIntText s.data with
    | none => 0
    | some (neg, raw) => ulongOf neg raw

/-- Model of `parseInt32` (state-plane coordinates): 0 on empty or non-numeric
input, otherwise `static_cast<int32_t>(strtol(...))`. -/
def parseInt32 (s : String) : Int :=
  if s.data = [] then 0
  else
    match scanIntText s.data with
    | none => 0
    | some (neg, raw) => toInt32 (slongOf neg raw)

/-- Lower-case fold of an ASCII letter, for the case-insensitive
`INF`/`NAN` and `0X` forms of `strtod`. -/
def lowerC (c : Char) : Char :=
  if 65 ≤ c.toNat ∧ c.toNat ≤ 90 then Char.ofNat (c.toNat + 32) else c

/-- C `isxdigit`: `0-9`, `a-f`, `A-F`. -/
def isHexDigitC (c : Char) : Bool :=
  (48 ≤ c.toNat && c.toNat ≤ 57) || (97 ≤ c.toNat && c.toNat ≤ 102) ||
  (65 ≤ c.toNat && c.toNat ≤ 70)

/-- Numeric value of one hexadecimal digit character. -/
def hexVal (c : Char) : Nat :=
  if 48 ≤ c.toNat ∧ c.toNat ≤ 57 then c.toNat - 48
  else if 97 ≤ c.toNat then c.toNat - 87
  else c.toNat - 55

/-- Value of a big-endian list of hexadecimal digit characters. -/
def hexToNat (cs : List Char) : Nat :=
  cs.foldl (fun a c => 16 * a + hexVal c) 0

/-- An optional exponent part `eE|pP [sign] digits` after the mantissa of a
`strtod` subject sequence.  If the marker is present but no digit follows,
the longest valid prefix ends before the marker, so nothing is consumed
and the exponent is 0. -/
def scanExp (mark1 mark2 : Char) (cs : List Char) : Int :=
  match cs with
  | c :: t =>
    if c == mark1 || c == mark2 then
      let eneg := t.headD ' ' == '-'
      let t2 := if t.headD ' ' == '-' || t.headD ' ' == '+' then t.tail else t
      let eds := t2.takeWhile isDigitC
      if eds = [] then 0
      else if eneg then -(digitsToNat eds : Int) else (digitsToNat eds : Int)
    else 0
  | [] => 0

/-- Outcome of the `strtod` subject-sequence scan.  `noConv` is the
"no characters converted, `end == begin`" case that makes the caller fall
back to its 0.0 default; `val` is a finite converted value (decimal or
hexadecimal form), exact as a rational; `inf` and `nan` are the infinity
and NaN forms, which DO convert (`end != begin`) but whose values
(±HUGE_VAL, NaN) have no counterpart in a rational embedding of
`double`. -/
inductive StrtodOut where
  | noConv : StrtodOut
  | val : ℚ → StrtodOut
  | inf : Bool → StrtodOut
  | nan : StrtodOut
deriving DecidableEq, Repr

/-- The `strtod` subject-sequence scan (C17 7.22.1.3): whitespace, an
optional sign, then the longest match among a hexadecimal form
`0x h-digits [. h-digits] [pP exp]` (exact binary value), a decimal form
`digits [. digits] [eE exp]` (exact decimal value), the infinity forms
`inf`/`infinity`, and the NaN forms `nan`/`nan(...)`, all case-insensitive;
anything else converts nothing.  Only the kind and (finite) value are
returned — the end-pointer position (e.g. `inf` vs `infinity`, the
parenthesised NaN payload) is not modelled because no caller looks at it
beyond the `end == begin` test. -/
def strtodScan (cs : List Char) : StrtodOut :=
  let cs1 := cs.dropWhile cIsSpace
  let neg := cs1.headD ' ' == '-'
  let cs2 := if cs1.headD ' ' == '-' || cs1.headD ' ' == '+' then cs1.tail else cs1
  let hbody := cs2.drop 2
  let hintds := hbody.takeWhile isHexDigitC
  let hrest := hbody.drop hintds.length
  let hfracds := if hrest.headD ' ' == '.' then hrest.tail.takeWhile isHexDigitC else []
  let hrest2 := if hrest.headD ' ' == '.' then hrest.tail.drop hfracds.length else hrest
  if (cs2.take 2).map lowerC = ['0', 'x'] ∧ (hintds ≠ [] ∨ hfracds ≠ []) then
    let e := scanExp 'p' 'P' hrest2
    let mant : ℚ := (hexToNat hintds : ℚ) +
                    (hexToNat hfracds : ℚ) / ((16 : ℚ) ^ hfracds.length)
    let v : ℚ := mant * (2 : ℚ) ^ e
    StrtodOut.val (if neg then -v else v)
  else
    let intds := cs2.takeWhile isDigitC
    let cs3 := cs2.drop intds.length
    let fracds := if cs3.headD ' ' == '.' then cs3.tail.takeWhile isDigitC else []
    let cs4 := if cs3.headD ' ' == '.' then cs3.tail.drop fracds.length else cs3
    if intds ≠ [] ∨ fracds ≠ [] then
      let e := scanExp 'e' 'E' cs4
      let mant : ℚ := (digitsToNat intds : ℚ) +
                      (digitsToNat fracds : ℚ) / ((10 : ℚ) ^ fracds.length)
      let v : ℚ := mant * (10 : ℚ) ^ e
      StrtodOut.val (if neg then -v else v)
    else if (cs2.take 3).map lowerC = ['i', 'n', 'f'] then StrtodOut.inf neg
    else if (cs2.take 3).map lowerC = ['n', 'a', 'n'] then StrtodOut.nan
    else StrtodOut.noConv

/-- Model of `parseDouble` (latitude/longitude): 0.0 when the string is
empty or `strtod` converts nothing, otherwise the `strtod` value.  On the
infinity and NaN forms the source returns ±HUGE_VAL resp. NaN — values
with no counterpart in this exact-rational embedding of `double`; those
two branches return an arbitrary placeholder, and no theorem in this file
concludes anything from them (the default-value property is stated under
the `StrtodOut.noConv` hypothesis, which excludes these forms). -/
def parseDouble (s : String) : ℚ :=
  if s.data = [] then 0
  else
    match strtodScan s.data with
    | StrtodOut.noConv => 0
    | StrtodOut.val v => v
    | StrtodOut.inf _ => 0
    | StrtodOut.nan => 0

/-! ## ServiceRequest (src/unnamed/part_002 lines 61-130) -/

/-- One ingested row, with the same per-field defaults as the C++ struct
(its in-class initialisers / `std::string`'s empty default). -/
structure ServiceRequest where
  uniqueKey              : Nat := 0
  createdDate            : DateTime := {}
  closedDate             : DateTime := {}
  dueDate                : DateTime := {}
  resolutionUpdatedDate  : DateTime := {}
  agency                 : String := ""
  agencyName             : String := ""
  complaintType          : String := ""
  descriptor             : String := ""
  additionalDetails      : String := ""
  locationType           : String := ""
  incidentZip            : Nat := 0
  incidentAddress        : String := ""
  streetName             : String := ""
  crossStreet1           : String := ""
  crossStreet2           : String := ""
  intersectionStreet1    : String := ""
  intersectionStreet2    : String := ""
  addressType            : String := ""
  city                   : String := ""
  landmark               : String := ""
  facilityType           : String := ""
  status                 : String := ""
  resolutionDescription  : String := ""
  communityBoard         : String := ""
  councilDistrict        : Int := -1
  policePrecinct         : String := ""
  bbl                    : Nat := 0
  borough                : String := ""
  xCoordinate            : Int := 0
  yCoordinate            : Int := 0
  latitude               : ℚ := 0
  longitude              : ℚ := 0
  channelType            : String := ""
  parkFacilityName       : String := ""
  parkBorough            : String := ""
  vehicleType            : String := ""
  taxiCompanyBorough     : String := ""
  taxiPickupLocation     : String := ""
  bridgeHighwayName      : String := ""
  bridgeHighwayDirection : String := ""
  roadRamp               : String := ""
  bridgeHighwaySegment   : String := ""
deriving DecidableEq

/-- The record built by `ServiceRequest::fromFields` from a row with at
least 43 decoded fields: column `i` feeds exactly one attribute through
the fixed position table (`f[43]`, the redundant WKT Location string, is
skipped). -/
def mkRecord (f : List String) : ServiceRequest :=
  { uniqueKey              := parseU64 (f.getD 0 "")
    createdDate            := DateTime.parse (f.getD 1 "")
    closedDate             := DateTime.parse (f.getD 2 "")
    agency                 := f.getD 3 ""
    agencyName             := f.getD 4 ""
    complaintType          := f.getD 5 ""
    descriptor             := f.getD 6 ""
    additionalDetails      := f.getD 7 ""
    locationType           := f.getD 8 ""
    incidentZip            := parseZip (f.getD 9 "")
    incidentAddress        := f.getD 10 ""
    streetName             := f.getD 11 ""
    crossStreet1           := f.getD 12 ""
    crossStreet2           := f.getD 13 ""
    intersectionStreet1    := f.getD 14 ""
    intersectionStreet2    := f.getD 15 ""
    addressType            := f.getD 16 ""
    city                   := f.getD 17 ""
    landmark               := f.getD 18 ""
    facilityType           := f.getD 19 ""
    status                 := f.getD 20 ""
    dueDate                := DateTime.parse (f.getD 21 "")
    resolutionDescription  := f.getD 22 ""
    resolutionUpdatedDate  := DateTime.parse (f.getD 23 "")
    communityBoard         := f.getD 24 ""
    councilDistrict        := parseInt16 (f.getD 25 "")
    policePrecinct         := f.getD 26 ""
    bbl                    := parseU64 (f.getD 27 "")
    borough                := f.getD 28 ""
    xCoordinate            := parseInt32 (f.getD 29 "")
    yCoordinate            := parseInt32 (f.getD 30 "")
    channelType            := f.getD 31 ""
    parkFacilityName       := f.getD 32 ""
    parkBorough            := f.getD 33 ""
    vehicleType            := f.getD 34 ""
    taxiCompanyBorough     := f.getD 35 ""
    taxiPickupLocation     := f.getD 36 ""
    bridgeHighwayName      := f.getD 37 ""
    bridgeHighwayDirection := f.getD 38 ""
    roadRamp               := f.getD 39 ""
    bridgeHighwaySegment   := f.getD 40 ""
    latitude               := parseDouble (f.getD 41 "")
    longitude              := parseDouble (f.getD 42 "") }

/-- Model of `ServiceRequest::fromFields`: reject rows with fewer than 43 fields
(the C++ function returns `false` before touching any member, so a
rejected row leaves no partially populated record — modelled by the
`Option`), otherwise populate every attribute from its fixed column. -/
def fromFields (f : List String) : Option ServiceRequest :=
  if f.length < 43 then none else some (mkRecord f)

/-! ## CSV line decoders -/

/-- Model of `CsvReader::parseLine` as a recursion over the remaining characters:
state `(current, inQuotes, acc)` for the field being built, the
quoted-state flag and the fields already emitted. -/
def parseLineAux : List Char → List Char → Bool → List String → List String
  | [], current, _, acc => acc ++ [current.asString]
  | '"' :: '"' :: rest, current, true, acc => parseLineAux rest (current ++ ['"']) true acc
  | '"' :: rest, current, true, acc => parseLineAux rest current false acc
  | c :: rest, current, true, acc => parseLineAux rest (current ++ [c]) true acc
  | '"' :: rest, current, false, acc => parseLineAux rest current true acc
  | ',' :: rest, current, false, acc => parseLineAux rest [] false (acc ++ [current.asString])
  | '\r' :: rest, current, false, acc => parseLineAux rest current false acc
  | c :: rest, current, false, acc => parseLineAux rest (current ++ [c]) false acc

/-- Model of `CsvReader::parseLine` (src/src/CsvReader.cpp lines 50-89). -/
def parseLine (line : String) : List String :=
  parseLineAux line.data [] false []

/-- Model of `cleanString` (src/src/NYC311Analyzer.cpp, src/unnamed/part_002):
strip one leading and one trailing literal `'"'` if present. -/
def cleanChars (cs : List Char) : List Char :=
  let a := if cs ≠ [] ∧ cs.headD ' ' = '"' then cs.tail else cs
  if a ≠ [] ∧ a.getLast? = some '"' then a.dropLast else a

/-- Model of `cleanString` on whole strings. -/
def cleanString (s : String) : String :=
  (cleanChars s.data).asString

/-- The automaton of `parseCSVLine`: identical to `parseLineAux` except
that every emitted field goes through `cleanString` first. -/
def parseCSVAux : List Char → List Char → Bool → List String → List String
  | [], current, _, acc => acc ++ [(cleanChars current).asString]
  | '"' :: '"' :: rest, current, true, acc => parseCSVAux rest (current ++ ['"']) true acc
  | '"' :: rest, current, true, acc => parseCSVAux rest current false acc
  | c :: rest, current, true, acc => parseCSVAux rest (current ++ [c]) true acc
  | '"' :: rest, current, false, acc => parseCSVAux rest current true acc
  | ',' :: rest, current, false, acc => parseCSVAux rest [] false (acc ++ [(cleanChars current).asString])
  | '\r' :: rest, current, false, acc => parseCSVAux rest current false acc
  | c :: rest, current, false, acc => parseCSVAux rest (current ++ [c]) false acc

/-- Model of `parseCSVLine` (src/src/NYC311Analyzer.cpp lines 31-68 and
src/unnamed/part_002 lines 149-186). -/
def parseCSVLine (line : String) : List String :=
  parseCSVAux line.data [] false []

/-! ## Bulk loaders -/

/-- The loop of `CsvReader::readAll` (src/src/CsvReader.cpp lines 96-120)
over the data lines (the header was already consumed by `open`): skip
empty lines outright, count every non-empty line in `total_`, count
rejected rows in `skipped_` and keep going, append accepted records in
file order.  Returns `(store, total_, skipped_)`. -/
def readAllGo : List String → List ServiceRequest → Nat → Nat →
    List ServiceRequest × Nat × Nat
  | [], out, total, skipped => (out, total, skipped)
  | line :: rest, out, total, skipped =>
    if line.data = [] then readAllGo rest out total skipped
    else
      match fromFields (parseLine line) with
      | none => readAllGo rest out (total + 1) (skipped + 1)
      | some r => readAllGo rest (out ++ [r]) (total + 1) skipped

/-- Model of `CsvReader::readAll` on the list of data lines. -/
def readAllModel (lines : List String) : List ServiceRequest × Nat × Nat :=
  readAllGo lines [] 0 0

/-- Model of `RECORD_LIMIT` of the `loadData` variant (src/unnamed/part_002
line 214). -/
def RECORD_LIMIT : Nat := 16000000

/-- The loop of `loadData` (src/unnamed/part_002 lines 223-241):
`lineCount` counts every line read (blank ones included), every accepted
record bumps `validRecords` and the loop breaks once that reaches
`RECORD_LIMIT`; a rejected row (including every blank line, whose decode
yields the single field `[""]`) is reported as a "Malformed record"
diagnostic, counted here as the third component.  Returns
`(records, lineCount, malformed-diagnostics)`. -/
def loadDataGo : List String → Nat → Nat → Nat → List ServiceRequest →
    List ServiceRequest × Nat × Nat
  | [], lineCount, _, malformed, acc => (acc, lineCount, malformed)
  | line :: rest, lineCount, validRecords, malformed, acc =>
    match fromFields (parseCSVLine line) with
    | some r =>
      if RECORD_LIMIT ≤ validRecords + 1 then (acc ++ [r], lineCount + 1, malformed)
      else loadDataGo rest (lineCount + 1) (validRecords + 1) malformed (acc ++ [r])
    | none => loadDataGo rest (lineCount + 1) validRecords (malformed + 1) acc

/-- Model of `loadData` on the list of data lines; `lineCount` starts at 1 because
the header line was read and counted first. -/
def loadDataModel (dataLines : List String) : List ServiceRequest × Nat × Nat :=
  loadDataGo dataLines 1 0 0 []

/-! ## Scan filters -/

/-- Model of `DataStore::filterByCreatedDateRange`
(src/multi-thread/src/DataStore.cpp lines 57-67): keep records whose
`createdDate` is valid and lies in `[start, stop]` under the `DateTime`
ordering (`>=`/`<=` are the negations of `<`). -/
def filterByCreatedDateRangeDS (records : List ServiceRequest)
    (start stop : DateTime) : List ServiceRequest :=
  records.filter fun r =>
    r.createdDate.valid && dtGeKey r.createdDate start && dtLeKey r.createdDate stop

/-- The `filterByCreatedDateRange` of src/unnamed/part_002 lines 256-264:
same range test but with no validity check on `createdDate`. -/
def filterByCreatedDateRangeG (records : List ServiceRequest)
    (start stop : DateTime) : List ServiceRequest :=
  records.filter fun r =>
    dtGeKey r.createdDate start && dtLeKey r.createdDate stop

/-- Model of `DataStore::filterByLatLonBox`
(src/multi-thread/src/DataStore.cpp lines 127-136): inclusive bounding-box
test on latitude and longitude, with no special case for the `0.0`
absent-coordinate encoding. -/
def filterByLatLonBox (records : List ServiceRequest)
    (minLat maxLat minLon maxLon : ℚ) : List ServiceRequest :=
  records.filter fun r =>
    decide (minLat ≤ r.latitude) && decide (r.latitude ≤ maxLat) &&
    decide (minLon ≤ r.longitude) && decide (r.longitude ≤ maxLon)

/-! ## Lemmas about decimal digit strings -/

theorem digitChar_toNat {d : Nat} (h : d < 10) : (Nat.digitChar d).toNat = 48 + d := by
  interval_cases d <;> rfl

theorem isDigitC_digitChar {d : Nat} (h : d < 10) : isDigitC (Nat.digitChar d) = true := by
  interval_cases d <;> rfl

theorem natToDigitsAux_eq (fuel n : Nat) (h : n ≤ fuel) :
    natToDigitsAux fuel n = (Nat.digits 10 n).reverse.map Nat.digitChar := by
  induction fuel generalizing n with
  | zero =>
    have : n = 0 := by omega
    subst this
    simp [natToDigitsAux]
  | succ fuel ih =>
    by_cases hn : n = 0
    · subst hn
      simp [natToDigitsAux]
    · have hlt : n / 10 ≤ fuel := by
        have := Nat.div_lt_self (by omega : 0 < n) (by norm_num : 1 < 10)
        omega
      have hd : Nat.digits 10 n = n % 10 :: Nat.digits 10 (n / 10) :=
        Nat.digits_def' (by norm_num) (by omega)
      simp [natToDigitsAux, hn, ih (n / 10) hlt, hd]

theorem natToDigits_eq (n : Nat) :
    natToDigits n = (Nat.digits 10 n).reverse.map Nat.digitChar :=
  natToDigitsAux_eq n n (le_refl n)

theorem natToDigits_all_digits {n : Nat} : ∀ c ∈ natToDigits n, isDigitC c = true := by
  intro c hc
  rw [natToDigits_eq] at hc
  simp only [List.mem_map, List.mem_reverse] at hc
  obtain ⟨d, hd, rfl⟩ := hc
  exact isDigitC_digitChar (Nat.digits_lt_base (by norm_num) hd)

theorem digitsToNat_nil : digitsToNat [] = 0 := rfl

theorem digitsToNat_append (l : List Char) (c : Char) :
    digitsToNat (l ++ [c]) = 10 * digitsToNat l + (c.toNat - 48) := by
  simp [digitsToNat, List.foldl_append]

theorem digitsToNat_natToDigits (n : Nat) : digitsToNat (natToDigits n) = n := by
  induction n using Nat.strong_induction_on with
  | _ n ih =>
    rcases Nat.eq_zero_or_pos n with rfl | hn
    · simp [natToDigits_eq, digitsToNat]
    · have hd : Nat.digits 10 n = n % 10 :: Nat.digits 10 (n / 10) :=
        Nat.digits_def' (by norm_num) hn
      have hrec : digitsToNat (natToDigits (n / 10)) = n / 10 :=
        ih (n / 10) (Nat.div_lt_self hn (by norm_num))
      have hlt : n % 10 < 10 := Nat.mod_lt _ (by norm_num)
      calc digitsToNat (natToDigits n)
          = digitsToNat (natToDigits (n / 10) ++ [Nat.digitChar (n % 10)]) := by
            simp [natToDigits_eq, hd]
        _ = 10 * (n / 10) + ((Nat.digitChar (n % 10)).toNat - 48) := by
            rw [digitsToNat_append, hrec]
        _ = n := by rw [digitChar_toNat hlt]; omega

theorem digitsToNat_replicate_zero (k : Nat) (ds : List Char) :
    digitsToNat (List.replicate k '0' ++ ds) = digitsToNat ds := by
  induction k with
  | zero => simp
  | succ k ih => simpa [digitsToNat, List.replicate_succ] using ih

theorem natToDigits_length_le {n w : Nat} (h : n < 10 ^ w) :
    (natToDigits n).length ≤ w := by
  have hlen : (natToDigits n).length = (Nat.digits 10 n).length := by
    simp [natToDigits_eq]
  rcases Nat.eq_zero_or_pos n with rfl | hn
  · simp [natToDigits_eq]
  · by_contra hgt
    push_neg at hgt
    have h1 : 10 ^ (Nat.digits 10 n).length ≤ 10 * n :=
      Nat.base_pow_length_digits_le 10 n (by norm_num) (by omega)
    have h2 : 10 ^ (w + 1) ≤ 10 ^ (Nat.digits 10 n).length :=
      Nat.pow_le_pow_right (by norm_num) (by omega)
    have h3 : 10 * n < 10 * 10 ^ w := by omega
    rw [← pow_succ'] at h3
    omega

theorem padChars_length {n w : Nat} (h : n < 10 ^ w) : (padChars w n).length = w := by
  have := natToDigits_length_le h
  simp [padChars]
  omega

theorem padChars_all_digits (w n : Nat) : ∀ c ∈ padChars w n, isDigitC c = true := by
  intro c hc
  simp only [padChars, List.mem_append, List.mem_replicate] at hc
  rcases hc with ⟨-, rfl⟩ | hc
  · rfl
  · exact natToDigits_all_digits c hc

theorem digitsToNat_padChars (w n : Nat) : digitsToNat (padChars w n) = n := by
  rw [padChars, digitsToNat_replicate_zero, digitsToNat_natToDigits]

theorem padChars_ne_nil {n w : Nat} (hw : 1 ≤ w) (h : n < 10 ^ w) :
    padChars w n ≠ [] := by
  intro hnil
  have := padChars_length h
  rw [hnil] at this
  simp at this
  omega

/-! ## Lemmas about the scanning primitives -/

theorem not_space_of_digit {c : Char} (h : isDigitC c = true) : cIsSpace c = false := by
  simp only [isDigitC, Bool.and_eq_true, decide_eq_true_eq] at h
  simp only [cIsSpace, Bool.or_eq_false_iff, beq_eq_false_iff_ne, ne_eq]
  omega

theorem not_sign_of_digit {c : Char} (h : isDigitC c = true) :
    (c == '-') = false ∧ (c == '+') = false := by
  constructor <;> rw [beq_eq_false_iff_ne] <;> rintro rfl <;> simp [isDigitC] at h

theorem dropWhile_append_of_forall {p : Char → Bool} (sp l : List Char)
    (hsp : ∀ x ∈ sp, p x = true) :
    List.dropWhile p (sp ++ l) = List.dropWhile p l := by
  induction sp with
  | nil => rfl
  | cons a sp ih =>
    have ha : p a = true := hsp a (by simp)
    simp only [List.cons_append, List.dropWhile_cons, ha, if_true]
    exact ih fun x hx => hsp x (by simp [hx])

theorem takeWhile_digits_append (ds : List Char) (c : Char) (rest : List Char)
    (hds : ∀ x ∈ ds, isDigitC x = true) (hc : isDigitC c = false) :
    (ds ++ c :: rest).takeWhile isDigitC = ds := by
  induction ds with
  | nil => simp [List.takeWhile_cons, hc]
  | cons a ds ih =>
    have ha : isDigitC a = true := hds a (by simp)
    simp only [List.cons_append, List.takeWhile_cons, ha, if_true]
    rw [ih fun x hx => hds x (by simp [hx])]

theorem takeWhile_digits_self (ds : List Char)
    (hds : ∀ x ∈ ds, isDigitC x = true) :
    ds.takeWhile isDigitC = ds := by
  induction ds with
  | nil => rfl
  | cons a l ih =>
    have ha : isDigitC a = true := hds a (by simp)
    simp only [List.takeWhile_cons, ha, if_true]
    rw [ih fun x hx => hds x (by simp [hx])]

theorem headD_append_of_ne_nil {ds : List Char} (l : List Char) (h : ds ≠ [])
    (c : Char) : (ds ++ l).headD c = ds.headD c := by
  cases ds with
  | nil => exact absurd rfl h
  | cons a t => rfl

theorem headD_digit_of_all {ds : List Char} (h : ds ≠ [])
    (hds : ∀ x ∈ ds, isDigitC x = true) : isDigitC (ds.headD ' ') = true := by
  cases ds with
  | nil => exact absurd rfl h
  | cons a t => exact hds a (by simp)

theorem dropWhile_eq_self_of_headD {p : Char → Bool} {l : List Char}
    (h : l ≠ []) (hh : p (l.headD ' ') = false) : List.dropWhile p l = l := by
  cases l with
  | nil => exact absurd rfl h
  | cons a t => simp only [List.headD_cons] at hh; simp [List.dropWhile_cons, hh]

/-- Behaviour of a `%u` directive (and of the `strtoul` subject scan) on
an input made of optional whitespace, a non-empty digit run, and a
non-digit continuation. -/
theorem scanU_spaces_digits (sp ds : List Char) (c : Char) (rest : List Char)
    (hsp : ∀ x ∈ sp, cIsSpace x = true)
    (hds : ∀ x ∈ ds, isDigitC x = true) (hne : ds ≠ [])
    (hc : isDigitC c = false) :
    scanU (sp ++ (ds ++ c :: rest)) = some (digitsToNat ds % 2 ^ 32, c :: rest) := by
  have hne2 : ds ++ c :: rest ≠ [] := by simp
  have hhead : (ds ++ c :: rest).headD ' ' = ds.headD ' ' :=
    headD_append_of_ne_nil _ hne ' '
  have hdig : isDigitC ((ds ++ c :: rest).headD ' ') = true := by
    rw [hhead]; exact headD_digit_of_all hne hds
  have hdrop : List.dropWhile cIsSpace (sp ++ (ds ++ c :: rest)) = ds ++ c :: rest := by
    rw [dropWhile_append_of_forall sp _ hsp]
    exact dropWhile_eq_self_of_headD hne2 (not_space_of_digit hdig)
  have hsign := not_sign_of_digit hdig
  simp only [scanU, hdrop, hsign.1, hsign.2, Bool.or_self, if_false,
    takeWhile_digits_append ds c rest hds hc, if_neg hne, List.drop_left,
    u32OfScan, Bool.false_eq_true]

theorem scanIntText_spaces_digits (sp ds : List Char) (rest : List Char)
    (hsp : ∀ x ∈ sp, cIsSpace x = true)
    (hds : ∀ x ∈ ds, isDigitC x = true) (hne : ds ≠ [])
    (hrest : rest = [] ∨ isDigitC (rest.headD ' ') = false) :
    scanIntText (sp ++ (ds ++ rest)) = some (false, digitsToNat ds) := by
  have hne2 : ds ++ rest ≠ [] := by
    intro hx
    exact hne (List.append_eq_nil.mp hx).1
  have hhead : (ds ++ rest).headD ' ' = ds.headD ' ' :=
    headD_append_of_ne_nil _ hne ' '
  have hdig : isDigitC ((ds ++ rest).headD ' ') = true := by
    rw [hhead]; exact headD_digit_of_all hne hds
  have hdrop : List.dropWhile cIsSpace (sp ++ (ds ++ rest)) = ds ++ rest := by
    rw [dropWhile_append_of_forall sp _ hsp]
    exact dropWhile_eq_self_of_headD hne2 (not_space_of_digit hdig)
  have hsign := not_sign_of_digit hdig
  have htake : (ds ++ rest).takeWhile isDigitC = ds := by
    rcases hrest with rfl | hr
    · rw [List.append_nil]
      exact takeWhile_digits_self _ hds
    · cases rest with
      | nil => rw [List.append_nil]; exact takeWhile_digits_self _ hds
      | cons r rs =>
        simp only [List.headD_cons] at hr
        exact takeWhile_digits_append _ r rs hds hr
  simp only [scanIntText, hdrop, hsign.1, hsign.2, Bool.or_self, if_false,
    Bool.false_eq_true, htake, if_neg hne]

/-! ## The packed comparison key -/

theorem shiftLeft_or_eq_add (n a b : Nat) (h : b < 2 ^ n) :
    a <<< n ||| b = 2 ^ n * a + b := by
  rw [Nat.shiftLeft_eq, Nat.mul_comm]
  exact (Nat.mul_add_lt_is_or h a).symm

/-- For field values within their machine-integer ranges the bit fields of
`toKey` are disjoint, so the packed key is the positional sum. -/
theorem toKey_eq_sum {a : DateTime} (h : dtWf a) :
    a.toKey = a.year * 2 ^ 40 + a.month * 2 ^ 32 + a.day * 2 ^ 24 +
      a.hour * 2 ^ 16 + a.minute * 2 ^ 8 + a.second := by
  obtain ⟨hy, hmo, hd, hh, hmi, hs⟩ := h
  rw [DateTime.toKey, Nat.or_assoc, Nat.or_assoc, Nat.or_assoc, Nat.or_assoc]
  rw [shiftLeft_or_eq_add 8 a.minute a.second (by omega)]
  rw [shiftLeft_or_eq_add 16 a.hour _
    (show 2 ^ 8 * a.minute + a.second < 2 ^ 16 by omega)]
  rw [shiftLeft_or_eq_add 24 a.day _
    (show 2 ^ 16 * a.hour + (2 ^ 8 * a.minute + a.second) < 2 ^ 24 by omega)]
  rw [shiftLeft_or_eq_add 32 a.month _
    (show 2 ^ 24 * a.day + (2 ^ 16 * a.hour + (2 ^ 8 * a.minute + a.second)) < 2 ^ 32
      by omega)]
  rw [shiftLeft_or_eq_add 40 a.year _
    (show 2 ^ 32 * a.month +
        (2 ^ 24 * a.day + (2 ^ 16 * a.hour + (2 ^ 8 * a.minute + a.second))) < 2 ^ 40
      by omega)]
  ring

/-- The packed-key and the field-by-field `operator<` agree on all pairs of
well-formed values (valid or not). -/
theorem ltKey_eq_ltFields (a b : DateTime) (hwa : dtWf a) (hwb : dtWf b) :
    dtLtKey a b = dtLtFields a b := by
  have hka := toKey_eq_sum hwa
  have hkb := toKey_eq_sum hwb
  obtain ⟨y₁, m₁, d₁, h₁, n₁, s₁, v₁⟩ := a
  obtain ⟨y₂, m₂, d₂, h₂, n₂, s₂, v₂⟩ := b
  obtain ⟨hy₁, hm₁, hd₁, hh₁, hn₁, hs₁⟩ := hwa
  obtain ⟨hy₂, hm₂, hd₂, hh₂, hn₂, hs₂⟩ := hwb
  have Hy1 : y₁ < 65536 := hy₁
  have Hm1 : m₁ < 256 := hm₁
  have Hd1 : d₁ < 256 := hd₁
  have Hh1 : h₁ < 256 := hh₁
  have Hn1 : n₁ < 256 := hn₁
  have Hs1 : s₁ < 256 := hs₁
  have Hy2 : y₂ < 65536 := hy₂
  have Hm2 : m₂ < 256 := hm₂
  have Hd2 : d₂ < 256 := hd₂
  have Hh2 : h₂ < 256 := hh₂
  have Hn2 : n₂ < 256 := hn₂
  have Hs2 : s₂ < 256 := hs₂
  cases v₁ <;> cases v₂ <;>
    simp only [dtLtKey, dtLtFields, Bool.not_true, Bool.not_false, Bool.and_self,
      Bool.true_and, Bool.false_and, Bool.and_false, Bool.and_true, if_true,
      if_false, Bool.false_eq_true, Bool.true_eq_false, ite_true, ite_false]
  rw [hka, hkb]
  dsimp only
  by_cases e₁ : y₁ = y₂
  · subst e₁
    by_cases e₂ : m₁ = m₂
    · subst e₂
      by_cases e₃ : d₁ = d₂
      · subst e₃
        by_cases e₄ : h₁ = h₂
        · subst e₄
          by_cases e₅ : n₁ = n₂
          · subst e₅
            simp only [bne_self_eq_false, if_false, Bool.false_eq_true, ite_false]
            simp only [decide_eq_decide]
            omega
          · have : (n₁ != n₂) = true := by simpa [bne_iff_ne] using e₅
            simp only [bne_self_eq_false, this, if_true, if_false,
              Bool.false_eq_true, ite_false, ite_true]
            simp only [decide_eq_decide]
            omega
        · have : (h₁ != h₂) = true := by simpa [bne_iff_ne] using e₄
          simp only [bne_self_eq_false, this, if_true, if_false,
            Bool.false_eq_true, ite_false, ite_true]
          simp only [decide_eq_decide]
          omega
      · have : (d₁ != d₂) = true := by simpa [bne_iff_ne] using e₃
        simp only [bne_self_eq_false, this, if_true, if_false,
          Bool.false_eq_true, ite_false, ite_true]
        simp only [decide_eq_decide]
        omega
    · have : (m₁ != m₂) = true := by simpa [bne_iff_ne] using e₂
      simp only [bne_self_eq_false, this, if_true, if_false,
        Bool.false_eq_true, ite_false, ite_true]
      simp only [decide_eq_decide]
      omega
  · have : (y₁ != y₂) = true := by simpa [bne_iff_ne] using e₁
    simp only [this, if_true, ite_true]
    simp only [decide_eq_decide]
    omega

/-- The packed-key and the field-by-field `operator==` agree on all pairs
of well-formed values. -/
theorem eqKey_eq_eqFields (a b : DateTime) (hwa : dtWf a) (hwb : dtWf b) :
    dtEqKey a b = dtEqFields a b := by
  have hka := toKey_eq_sum hwa
  have hkb := toKey_eq_sum hwb
  obtain ⟨y₁, m₁, d₁, h₁, n₁, s₁, v₁⟩ := a
  obtain ⟨y₂, m₂, d₂, h₂, n₂, s₂, v₂⟩ := b
  obtain ⟨hy₁, hm₁, hd₁, hh₁, hn₁, hs₁⟩ := hwa
  obtain ⟨hy₂, hm₂, hd₂, hh₂, hn₂, hs₂⟩ := hwb
  have Hy1 : y₁ < 65536 := hy₁
  have Hm1 : m₁ < 256 := hm₁
  have Hd1 : d₁ < 256 := hd₁
  have Hh1 : h₁ < 256 := hh₁
  have Hn1 : n₁ < 256 := hn₁
  have Hs1 : s₁ < 256 := hs₁
  have Hy2 : y₂ < 65536 := hy₂
  have Hm2 : m₂ < 256 := hm₂
  have Hd2 : d₂ < 256 := hd₂
  have Hh2 : h₂ < 256 := hh₂
  have Hn2 : n₂ < 256 := hn₂
  have Hs2 : s₂ < 256 := hs₂
  cases v₁ <;> cases v₂
  · rw [Bool.eq_iff_iff]
    simp [dtEqKey, dtEqFields, hka, hkb]
    omega
  · simp [dtEqKey, dtEqFields]
  · simp [dtEqKey, dtEqFields]
  · rw [Bool.eq_iff_iff]
    simp [dtEqKey, dtEqFields, hka, hkb]
    omega

theorem dtLtKey_irrefl (a : DateTime) : dtLtKey a a = false := by
  unfold dtLtKey
  cases h : a.valid <;> simp

theorem dtLtKey_trans {a b c : DateTime} (h1 : dtLtKey a b = true)
    (h2 : dtLtKey b c = true) : dtLtKey a c = true := by
  unfold dtLtKey at h1 h2 ⊢
  cases ha : a.valid <;> cases hb : b.valid <;> cases hc : c.valid <;>
    (simp_all; try omega)

theorem dtLtKey_asymm {a b : DateTime} (h1 : dtLtKey a b = true) :
    dtLtKey b a = false := by
  by_contra hne
  have h2 : dtLtKey b a = true := by
    cases h : dtLtKey b a
    · exact absurd h hne
    · rfl
  have := dtLtKey_trans h1 h2
  rw [dtLtKey_irrefl] at this
  exact Bool.false_ne_true this

theorem dtLtKey_trichotomy {a b : DateTime} (ha : a.valid = true)
    (hb : b.valid = true) :
    dtLtKey a b = true ∨ dtLtKey b a = true ∨ dtEqKey a b = true := by
  unfold dtLtKey dtEqKey
  rcases Nat.lt_trichotomy a.toKey b.toKey with h | h | h <;>
    simp [ha, hb, h]

theorem dt_invalid_lt_valid {a b : DateTime} (ha : a.valid = false)
    (hb : b.valid = true) : dtLtKey a b = true ∧ dtLtFields a b = true := by
  unfold dtLtKey dtLtFields
  simp [ha, hb]

/-- Every failure path of `DateTime::parse` returns the default-initialised
value, so a parse-produced invalid `DateTime` has all data fields zero. -/
theorem parse_invalid_eq {s : String} (h : (DateTime.parse s).valid = false) :
    DateTime.parse s = dt0 := by
  by_cases hlen : s.data.length < 11
  · unfold DateTime.parse
    rw [if_pos hlen]
    rfl
  · cases hscan : scanDT s.data with
    | none =>
      unfold DateTime.parse
      rw [if_neg hlen, hscan]
      rfl
    | some t =>
      unfold DateTime.parse at h
      rw [if_neg hlen, hscan] at h
      simp at h

/-! ## Claim C4 -/

/-- C4: the packed-key comparison (`src/src/ServiceRequest.cpp`) and the
field-by-field comparison (`src/single_thread/ServiceRequest.cpp`) agree —
`<` and `==` return the same answer on every pair of well-formed values,
valid or not — and the common `<` is a strict total order on valid values
(irreflexive, transitive, asymmetric, total up to `==`), under which every
invalid value compares less than every valid value in both variants. -/
theorem claim_C4_ordering (a b c : DateTime)
    (hwa : dtWf a) (hwb : dtWf b) (hwc : dtWf c) :
    (dtLtKey a b = dtLtFields a b) ∧
    (dtEqKey a b = dtEqFields a b) ∧
    (dtLtKey a a = false ∧ dtLtFields a a = false) ∧
    (dtLtKey a b = true → dtLtKey b c = true → dtLtKey a c = true) ∧
    (dtLtFields a b = true → dtLtFields b c = true → dtLtFields a c = true) ∧
    (a.valid = true → b.valid = true →
      (dtLtKey a b = true ∨ dtLtKey b a = true ∨ dtEqKey a b = true) ∧
      ¬(dtLtKey a b = true ∧ dtLtKey b a = true)) ∧
    (a.valid = false → b.valid = true →
      dtLtKey a b = true ∧ dtLtFields a b = true) := by
  refine ⟨ltKey_eq_ltFields a b hwa hwb, eqKey_eq_eqFields a b hwa hwb,
    ⟨dtLtKey_irrefl a, ?_⟩, fun h1 h2 => dtLtKey_trans h1 h2, ?_, ?_, ?_⟩
  · rw [← ltKey_eq_ltFields a a hwa hwa]
    exact dtLtKey_irrefl a
  · rw [← ltKey_eq_ltFields a b hwa hwb, ← ltKey_eq_ltFields b c hwb hwc,
      ← ltKey_eq_ltFields a c hwa hwc]
    exact fun h1 h2 => dtLtKey_trans h1 h2
  · intro ha hb
    refine ⟨dtLtKey_trichotomy ha hb, ?_⟩
    rintro ⟨h1, h2⟩
    rw [dtLtKey_asymm h1] at h2
    exact Bool.false_ne_true h2
  · exact fun ha hb => dt_invalid_lt_valid ha hb

/-- Witness for C4 at concrete well-formed values. -/
theorem claim_C4_ordering_witness :
    dtWf ⟨2015, 3, 14, 9, 26, 53, true⟩ ∧ dtWf ⟨2016, 1, 1, 0, 0, 0, true⟩ ∧
    dtWf ⟨0, 0, 0, 0, 0, 0, false⟩ ∧
    ((dtLtKey ⟨2015, 3, 14, 9, 26, 53, true⟩ ⟨2016, 1, 1, 0, 0, 0, true⟩ =
        dtLtFields ⟨2015, 3, 14, 9, 26, 53, true⟩ ⟨2016, 1, 1, 0, 0, 0, true⟩) ∧
      (dtEqKey ⟨2015, 3, 14, 9, 26, 53, true⟩ ⟨2016, 1, 1, 0, 0, 0, true⟩ =
        dtEqFields ⟨2015, 3, 14, 9, 26, 53, true⟩ ⟨2016, 1, 1, 0, 0, 0, true⟩) ∧
      (dtLtKey ⟨2015, 3, 14, 9, 26, 53, true⟩ ⟨2015, 3, 14, 9, 26, 53, true⟩ = false ∧
        dtLtFields ⟨2015, 3, 14, 9, 26, 53, true⟩ ⟨2015, 3, 14, 9, 26, 53, true⟩ = false) ∧
      (dtLtKey ⟨2015, 3, 14, 9, 26, 53, true⟩ ⟨2016, 1, 1, 0, 0, 0, true⟩ = true →
        dtLtKey ⟨2016, 1, 1, 0, 0, 0, true⟩ ⟨0, 0, 0, 0, 0, 0, false⟩ = true →
        dtLtKey ⟨2015, 3, 14, 9, 26, 53, true⟩ ⟨0, 0, 0, 0, 0, 0, false⟩ = true) ∧
      (dtLtFields ⟨2015, 3, 14, 9, 26, 53, true⟩ ⟨2016, 1, 1, 0, 0, 0, true⟩ = true →
        dtLtFields ⟨2016, 1, 1, 0, 0, 0, true⟩ ⟨0, 0, 0, 0, 0, 0, false⟩ = true →
        dtLtFields ⟨2015, 3, 14, 9, 26, 53, true⟩ ⟨0, 0, 0, 0, 0, 0, false⟩ = true) ∧
      ((⟨2015, 3, 14, 9, 26, 53, true⟩ : DateTime).valid = true →
        (⟨2016, 1, 1, 0, 0, 0, true⟩ : DateTime).valid = true →
        (dtLtKey ⟨2015, 3, 14, 9, 26, 53, true⟩ ⟨2016, 1, 1, 0, 0, 0, true⟩ = true ∨
          dtLtKey ⟨2016, 1, 1, 0, 0, 0, true⟩ ⟨2015, 3, 14, 9, 26, 53, true⟩ = true ∨
          dtEqKey ⟨2015, 3, 14, 9, 26, 53, true⟩ ⟨2016, 1, 1, 0, 0, 0, true⟩ = true) ∧
        ¬(dtLtKey ⟨2015, 3, 14, 9, 26, 53, true⟩ ⟨2016, 1, 1, 0, 0, 0, true⟩ = true ∧
          dtLtKey ⟨2016, 1, 1, 0, 0, 0, true⟩ ⟨2015, 3, 14, 9, 26, 53, true⟩ = true)) ∧
      ((⟨2015, 3, 14, 9, 26, 53, true⟩ : DateTime).valid = false →
        (⟨2016, 1, 1, 0, 0, 0, true⟩ : DateTime).valid = true →
        dtLtKey ⟨2015, 3, 14, 9, 26, 53, true⟩ ⟨2016, 1, 1, 0, 0, 0, true⟩ = true ∧
        dtLtFields ⟨2015, 3, 14, 9, 26, 53, true⟩ ⟨2016, 1, 1, 0, 0, 0, true⟩ = true)) :=
  ⟨by decide, by decide, by decide,
    claim_C4_ordering ⟨2015, 3, 14, 9, 26, 53, true⟩ ⟨2016, 1, 1, 0, 0, 0, true⟩
      ⟨0, 0, 0, 0, 0, 0, false⟩ (by decide) (by decide) (by decide)⟩

/-! ## Claim C10 -/

/-- C10: any two invalid `DateTime` values produced by `parse` have all
data fields zero (they equal the default sentinel), so they compare equal
under `operator==` and neither is below the other under `operator<`, in
both the packed-key and the field-by-field comparison variants. -/
theorem claim_C10_parse_invalid_compare (s t : String)
    (hs : (DateTime.parse s).valid = false)
    (ht : (DateTime.parse t).valid = false) :
    DateTime.parse s = dt0 ∧ DateTime.parse t = dt0 ∧
    dtEqKey (DateTime.parse s) (DateTime.parse t) = true ∧
    dtEqFields (DateTime.parse s) (DateTime.parse t) = true ∧
    dtLtKey (DateTime.parse s) (DateTime.parse t) = false ∧
    dtLtFields (DateTime.parse s) (DateTime.parse t) = false := by
  have h1 := parse_invalid_eq hs
  have h2 := parse_invalid_eq ht
  rw [h1, h2]
  exact ⟨rfl, rfl, by decide, by decide, by decide, by decide⟩

/-- Witness for C10: the empty string and a 12-character non-date both
parse to the invalid sentinel and compare as claimed. -/
theorem claim_C10_parse_invalid_compare_witness :
    (DateTime.parse "").valid = false ∧
    (DateTime.parse "hello world!").valid = false ∧
    (DateTime.parse "" = dt0 ∧ DateTime.parse "hello world!" = dt0 ∧
      dtEqKey (DateTime.parse "") (DateTime.parse "hello world!") = true ∧
      dtEqFields (DateTime.parse "") (DateTime.parse "hello world!") = true ∧
      dtLtKey (DateTime.parse "") (DateTime.parse "hello world!") = false ∧
      dtLtFields (DateTime.parse "") (DateTime.parse "hello world!") = false) :=
  ⟨by decide, by decide,
    claim_C10_parse_invalid_compare "" "hello world!" (by decide) (by decide)⟩

/-! ## Claim C2 -/

/-- C2: the line decoder is the two-state automaton — in quoted state a
comma is appended to the current field and a doubled quote emits one
literal quote (both stated for every reachable state of the automaton, in
both decoder variants) — and concretely `a,"b,c",d` decodes to
`[a, b,c, d]` and `a,"x""y",b` decodes to `[a, x"y, b]`. -/
theorem claim_C2_csv_decoder :
    (∀ (rest current : List Char) (acc : List String),
      parseLineAux (',' :: rest) current true acc =
        parseLineAux rest (current ++ [',']) true acc) ∧
    (∀ (rest current : List Char) (acc : List String),
      parseLineAux ('"' :: '"' :: rest) current true acc =
        parseLineAux rest (current ++ ['"']) true acc) ∧
    (∀ (rest current : List Char) (acc : List String),
      parseCSVAux (',' :: rest) current true acc =
        parseCSVAux rest (current ++ [',']) true acc) ∧
    (∀ (rest current : List Char) (acc : List String),
      parseCSVAux ('"' :: '"' :: rest) current true acc =
        parseCSVAux rest (current ++ ['"']) true acc) ∧
    parseLine "a,\"b,c\",d" = ["a", "b,c", "d"] ∧
    parseLine "a,\"x\"\"y\",b" = ["a", "x\"y", "b"] ∧
    parseCSVLine "a,\"b,c\",d" = ["a", "b,c", "d"] ∧
    parseCSVLine "a,\"x\"\"y\",b" = ["a", "x\"y", "b"] := by
  refine ⟨?_, ?_, ?_, ?_, by decide, by decide, by decide, by decide⟩
  · intro rest current acc
    simp [parseLineAux]
  · intro rest current acc
    simp [parseLineAux]
  · intro rest current acc
    simp [parseCSVAux]
  · intro rest current acc
    simp [parseCSVAux]

/-! ## Claim C3 -/

/-- C3: `fromFields` rejects every vector of 42 or fewer fields regardless
of content (and, the `Option` result being `none`, stores no partially
populated record), accepts every vector of at least 43 fields, maps each
column to its fixed attribute, and reads only columns 0–42 — so the 44th
column and anything beyond it never influence the result. -/
theorem claim_C3_fromFields (f : List String) :
    (f.length ≤ 42 → fromFields f = none) ∧
    (43 ≤ f.length → fromFields f = some (mkRecord f)) ∧
    (43 ≤ f.length → (fromFields f).map (fun r => r.uniqueKey) =
        some (parseU64 (f.getD 0 "")) ∧
      (fromFields f).map (fun r => r.createdDate) =
        some (DateTime.parse (f.getD 1 "")) ∧
      (fromFields f).map (fun r => r.borough) = some (f.getD 28 "") ∧
      (fromFields f).map (fun r => r.latitude) =
        some (parseDouble (f.getD 41 "")) ∧
      (fromFields f).map (fun r => r.longitude) =
        some (parseDouble (f.getD 42 ""))) ∧
    (∀ g : List String, 43 ≤ f.length → 43 ≤ g.length →
      (∀ i : Nat, i < 43 → f.getD i "" = g.getD i "") →
      fromFields f = fromFields g) := by
  refine ⟨fun h => by simp [fromFields]; omega,
    fun h => by simp [fromFields]; omega, fun h => ?_, fun g hf hg hag => ?_⟩
  · have : fromFields f = some (mkRecord f) := by simp [fromFields]; omega
    simp [this, mkRecord]
  · have h1 : fromFields f = some (mkRecord f) := by simp [fromFields]; omega
    have h2 : fromFields g = some (mkRecord g) := by simp [fromFields]; omega
    rw [h1, h2]
    unfold mkRecord
    rw [hag 0 (by omega),
      hag 1 (by omega),
      hag 2 (by omega),
      hag 3 (by omega),
      hag 4 (by omega),
      hag 5 (by omega),
      hag 6 (by omega),
      hag 7 (by omega),
      hag 8 (by omega),
      hag 9 (by omega),
      hag 10 (by omega),
      hag 11 (by omega),
      hag 12 (by omega),
      hag 13 (by omega),
      hag 14 (by omega),
      hag 15 (by omega),
      hag 16 (by omega),
      hag 17 (by omega),
      hag 18 (by omega),
      hag 19 (by omega),
      hag 20 (by omega),
      hag 21 (by omega),
      hag 22 (by omega),
      hag 23 (by omega),
      hag 24 (by omega),
      hag 25 (by omega),
      hag 26 (by omega),
      hag 27 (by omega),
      hag 28 (by omega),
      hag 29 (by omega),
      hag 30 (by omega),
      hag 31 (by omega),
      hag 32 (by omega),
      hag 33 (by omega),
      hag 34 (by omega),
      hag 35 (by omega),
      hag 36 (by omega),
      hag 37 (by omega),
      hag 38 (by omega),
      hag 39 (by omega),
      hag 40 (by omega),
      hag 41 (by omega),
      hag 42 (by omega)]

/-- Witness for C3 at a 42-field row and a pair of 43/44-field rows. -/
theorem claim_C3_fromFields_witness :
    ((List.replicate 42 "x").length ≤ 42 → fromFields (List.replicate 42 "x") = none) ∧
    (fromFields (List.replicate 42 "x") = none) ∧
    (43 ≤ (List.replicate 43 "").length →
      fromFields (List.replicate 43 "") = some (mkRecord (List.replicate 43 ""))) ∧
    (fromFields (List.replicate 43 "") = fromFields (List.replicate 43 "" ++ ["IGNORED"])) :=
  ⟨(claim_C3_fromFields (List.replicate 42 "x")).1,
    (claim_C3_fromFields (List.replicate 42 "x")).1 (by decide),
    (claim_C3_fromFields (List.replicate 43 "")).2.1,
    (claim_C3_fromFields (List.replicate 43 "")).2.2.2 (List.replicate 43 "" ++ ["IGNORED"])
      (by decide) (by decide) (by decide)⟩

/-! ## Claim C1 -/

theorem dtGeKey_invalid_left {a s : DateTime} (h : a.valid = false) :
    dtGeKey a s = !s.valid := by
  unfold dtGeKey dtLtKey
  cases hs : s.valid <;> simp [h]

theorem dtLeKey_invalid_left {a e : DateTime} (h : a.valid = false) :
    dtLeKey a e = true := by
  unfold dtLeKey dtLtKey
  cases he : e.valid <;> simp [h]

/-- C1 counterexample: the `filterByCreatedDateRange` of
src/unnamed/part_002 performs no validity check, so a record whose
`createdDate` is the invalid sentinel IS returned when the range bounds
are invalid — the claim that such a record is never in the result for any
choice of bounds fails on this variant. -/
theorem claim_C1_counterexample :
    ({} : ServiceRequest).createdDate.valid = false ∧ dt0.valid = false ∧
    filterByCreatedDateRangeG [{}] dt0 dt0 = [{}] := by
  refine ⟨rfl, rfl, ?_⟩
  decide

/-- C1 (amended): the DataStore variant returns exactly the records with
valid `createdDate` inside `[start, stop]` (in particular no
invalid-`createdDate` record, for any bounds); the part_002 variant
applies only the range test, which for a record with invalid
`createdDate` holds iff `start` is itself invalid. -/
theorem claim_C1_date_range_filter (records : List ServiceRequest)
    (s e : DateTime) (r : ServiceRequest) :
    (r ∈ filterByCreatedDateRangeDS records s e ↔
      r ∈ records ∧ r.createdDate.valid = true ∧
      dtGeKey r.createdDate s = true ∧ dtLeKey r.createdDate e = true) ∧
    (r.createdDate.valid = false → r ∉ filterByCreatedDateRangeDS records s e) ∧
    (r.createdDate.valid = true →
      (r ∈ filterByCreatedDateRangeG records s e ↔
        r ∈ records ∧ dtGeKey r.createdDate s = true ∧ dtLeKey r.createdDate e = true)) ∧
    (r.createdDate.valid = false →
      (r ∈ filterByCreatedDateRangeG records s e ↔ r ∈ records ∧ s.valid = false)) := by
  have hds : r ∈ filterByCreatedDateRangeDS records s e ↔
      r ∈ records ∧ r.createdDate.valid = true ∧
      dtGeKey r.createdDate s = true ∧ dtLeKey r.createdDate e = true := by
    unfold filterByCreatedDateRangeDS
    rw [List.mem_filter]
    simp [Bool.and_eq_true, and_assoc]
  refine ⟨hds, fun h hmem => ?_, fun h => ?_, fun h => ?_⟩
  · rw [hds] at hmem
    rw [hmem.2.1] at h
    exact absurd h (by simp)
  · unfold filterByCreatedDateRangeG
    rw [List.mem_filter]
    simp [Bool.and_eq_true, and_assoc]
  · unfold filterByCreatedDateRangeG
    rw [List.mem_filter]
    simp [dtGeKey_invalid_left h, dtLeKey_invalid_left h, Bool.and_eq_true,
      Bool.not_eq_true']

/-- Witness for C1 at the default record and invalid bounds. -/
theorem claim_C1_date_range_filter_witness :
    ({} : ServiceRequest).createdDate.valid = false ∧
    (({} : ServiceRequest) ∈ filterByCreatedDateRangeG [{}] dt0 dt0 ↔
      ({} : ServiceRequest) ∈ [({} : ServiceRequest)] ∧ dt0.valid = false) :=
  ⟨rfl, (claim_C1_date_range_filter [{}] dt0 dt0 {}).2.2.2 rfl⟩

/-! ## Claim C8 -/

/-- C8: `filterByLatLonBox` gives the absent-coordinate encoding
`latitude = longitude = 0.0` no special treatment: whenever the box
contains the origin, every stored record with both coordinates 0.0 is in
the result. -/
theorem claim_C8_latlon_box (records : List ServiceRequest)
    (minLat maxLat minLon maxLon : ℚ)
    (h1 : minLat ≤ 0) (h2 : 0 ≤ maxLat) (h3 : minLon ≤ 0) (h4 : 0 ≤ maxLon) :
    ∀ r ∈ records, r.latitude = 0 → r.longitude = 0 →
      r ∈ filterByLatLonBox records minLat maxLat minLon maxLon := by
  intro r hr hlat hlon
  unfold filterByLatLonBox
  rw [List.mem_filter]
  refine ⟨hr, ?_⟩
  simp [hlat, hlon, h1, h2, h3, h4]

/-- Witness for C8: the default record (lat = lon = 0) and the box
`[-1, 1] × [-1, 1]`. -/
theorem claim_C8_latlon_box_witness :
    ((-1 : ℚ) ≤ 0 ∧ (0 : ℚ) ≤ 1) ∧
    ({} : ServiceRequest).latitude = 0 ∧ ({} : ServiceRequest).longitude = 0 ∧
    ({} : ServiceRequest) ∈ filterByLatLonBox [{}] (-1) 1 (-1) 1 :=
  ⟨⟨by norm_num, by norm_num⟩, rfl, rfl,
    claim_C8_latlon_box [{}] (-1) 1 (-1) 1 (by norm_num) (by norm_num)
      (by norm_num) (by norm_num) {} (by simp) rfl rfl⟩

/-! ## Claim C9 -/

/-- C9: `DateTime::parse` validates nothing beyond the scan itself — for
every input of length at least 11 whose fixed-order scan extracts six
numbers and a 1–2 character non-space token, the result is marked valid
with the scanned values stored through the narrowing casts (no range
check on month, day, hour, minute or second), and the meridiem is PM
exactly when the token starts with `'P'` or `'p'` — every other token
(not only `"AM"`) is treated as AM. -/
theorem claim_C9_parse_no_validation (s : String)
    (mm dd yyyy hh mi ss : Nat) (tok : List Char)
    (hlen : ¬ s.data.length < 11)
    (hscan : scanDT s.data = some ⟨mm, dd, yyyy, hh, mi, ss, tok⟩) :
    DateTime.parse s =
      { year := yyyy % 65536, month := mm % 256, day := dd % 256,
        hour := to24h (hh % 256) (tok.headD ' ' == 'P' || tok.headD ' ' == 'p'),
        minute := mi % 256, second := ss % 256, valid := true } ∧
    (DateTime.parse s).valid = true := by
  have h : DateTime.parse s =
      { year := yyyy % 65536, month := mm % 256, day := dd % 256,
        hour := to24h (hh % 256) (tok.headD ' ' == 'P' || tok.headD ' ' == 'p'),
        minute := mi % 256, second := ss % 256, valid := true } := by
    unfold DateTime.parse
    rw [if_neg hlen, hscan]
  exact ⟨h, by rw [h]⟩

/-- Witness for C9: every numeric component out of its documented range
and a meridiem token `QQ`, still accepted as a valid value with the junk
stored verbatim and `QQ` read as AM. -/
theorem claim_C9_parse_no_validation_witness :
    (¬ ("13/45/2020 27:80:90 QQ").data.length < 11) ∧
    scanDT ("13/45/2020 27:80:90 QQ").data =
      some ⟨13, 45, 2020, 27, 80, 90, ['Q', 'Q']⟩ ∧
    (DateTime.parse "13/45/2020 27:80:90 QQ" =
      { year := 2020 % 65536, month := 13 % 256, day := 45 % 256,
        hour := to24h (27 % 256) (['Q', 'Q'].headD ' ' == 'P' || ['Q', 'Q'].headD ' ' == 'p'),
        minute := 80 % 256, second := 90 % 256, valid := true } ∧
      (DateTime.parse "13/45/2020 27:80:90 QQ").valid = true) :=
  ⟨by decide, by decide,
    claim_C9_parse_no_validation "13/45/2020 27:80:90 QQ" 13 45 2020 27 80 90
      ['Q', 'Q'] (by decide) (by decide)⟩

/-! ## Claim C6 -/

theorem readAllGo_spec (lines : List String) (out : List ServiceRequest)
    (total skipped : Nat) :
    readAllGo lines out total skipped =
      (out ++ lines.filterMap (fun l => if l.data = [] then none else fromFields (parseLine l)),
       total + (lines.filter (fun l => !decide (l.data = []))).length,
       skipped + (lines.filter
         (fun l => !decide (l.data = []) && (fromFields (parseLine l)).isNone)).length) := by
  induction lines generalizing out total skipped with
  | nil => simp [readAllGo]
  | cons line rest ih =>
    by_cases hl : line.data = []
    · simp [readAllGo, hl, ih]
    · cases hf : fromFields (parseLine line) with
      | none =>
        simp only [readAllGo, if_neg hl, hf, ih]
        simp [List.filterMap_cons, List.filter_cons, hl, hf, Prod.mk.injEq]
        omega
      | some r =>
        simp only [readAllGo, if_neg hl, hf, ih]
        simp [List.filterMap_cons, List.filter_cons, hl, hf, Prod.mk.injEq]
        omega

theorem loadDataGo_length (lines : List String) (c v m : Nat)
    (acc : List ServiceRequest) (hv : v < RECORD_LIMIT) :
    (loadDataGo lines c v m acc).1.length ≤ acc.length + (RECORD_LIMIT - v) := by
  induction lines generalizing c v m acc with
  | nil => simp [loadDataGo]
  | cons line rest ih =>
    cases hf : fromFields (parseCSVLine line) with
    | none =>
      simpa only [loadDataGo, hf] using ih (c + 1) v (m + 1) acc hv
    | some r =>
      simp only [loadDataGo, hf]
      by_cases hb : RECORD_LIMIT ≤ v + 1
      · simp only [if_pos hb, List.length_append, List.length_cons, List.length_nil]
        omega
      · rw [if_neg hb]
        calc (loadDataGo rest (c + 1) (v + 1) m (acc ++ [r])).1.length
            ≤ (acc ++ [r]).length + (RECORD_LIMIT - (v + 1)) :=
              ih (c + 1) (v + 1) m (acc ++ [r]) (by omega)
          _ ≤ acc.length + (RECORD_LIMIT - v) := by
              simp only [List.length_append, List.length_cons, List.length_nil]
              omega

/-- C6 counterexample: the `loadData` variant of src/unnamed/part_002 does
not skip blank lines — a single blank data line is counted as a processed
line (`lineCount` goes from 1 to 2) and is reported as a malformed record
(diagnostic count 1), where the claim requires blank lines to be neither
processed nor malformed. -/
theorem claim_C6_counterexample : loadDataModel [""] = ([], 2, 1) := by
  decide

/-- C6 (amended): `CsvReader::readAll` behaves exactly as claimed — it
processes every data line to end of input, skips blank lines without
counting them, counts each rejected non-empty line in `skipped_` and keeps
going, and stores the accepted records of all lines in file order with no
record-count threshold.  The `loadData` variant of src/unnamed/part_002
instead counts a blank line as processed and malformed, and stops early
once `RECORD_LIMIT = 16000000` records have been accepted (its store never
exceeds that bound). -/
theorem claim_C6_bulk_loader (lines : List String) :
    (readAllModel lines =
      (lines.filterMap (fun l => if l.data = [] then none else fromFields (parseLine l)),
       (lines.filter (fun l => !decide (l.data = []))).length,
       (lines.filter
         (fun l => !decide (l.data = []) && (fromFields (parseLine l)).isNone)).length)) ∧
    (∀ (rest : List String) (c v m : Nat) (acc : List ServiceRequest),
      loadDataGo ("" :: rest) c v m acc = loadDataGo rest (c + 1) v (m + 1) acc) ∧
    (loadDataModel lines).1.length ≤ RECORD_LIMIT := by
  refine ⟨?_, fun rest c v m acc => ?_, ?_⟩
  · simpa [readAllModel] using readAllGo_spec lines [] 0 0
  · have h : fromFields (parseCSVLine "") = none := rfl
    simp [loadDataGo, h]
  · have h := loadDataGo_length lines 1 0 0 [] (by norm_num [RECORD_LIMIT])
    simpa [loadDataModel] using h

/-! ## Claim C7 -/

/-- C7 counterexample: the textual value `2^64` exceeds the range of the
64-bit `strtoul`, which saturates at `ULONG_MAX` before the narrowing
cast, so `parseZip` yields `2^32 - 1` and NOT the claimed wraparound of
the textual value to the target width (which would be `0`). -/
theorem claim_C7_counterexample :
    parseZip "18446744073709551616" = 4294967295 ∧
    digitsToNat ("18446744073709551616").data % 2 ^ 32 = 0 ∧
    parseZip "18446744073709551616" ≠
      digitsToNat ("18446744073709551616").data % 2 ^ 32 := by
  refine ⟨by decide, by decide, by decide⟩

/-- C7 (amended): an empty string or one whose `strtoul`/`strtol` subject
sequence is empty yields the defined default of each integer conversion
(0 for zip, BBL, unique key and state-plane coordinates, -1 for council
district), and an empty string or one on which `strtod` converts nothing
yields 0.0 for latitude/longitude, never an error (the infinity and NaN
forms of `strtod` do convert, despite containing no digits, and are
outside the default clause); a numeric string of either sign is truncated
to the target integer width by wraparound provided its magnitude is
representable in the 64-bit intermediate conversion (`< 2^64` for the
unsigned conversions, `< 2^63` for the signed ones); beyond that the
intermediate conversion saturates at its 64-bit boundary (`ULONG_MAX`,
resp. `LONG_MAX`/`LONG_MIN`) and the narrowing cast truncates the
saturated value. -/
theorem claim_C7_numeric_conversions (s : String) (v : Nat) (neg : Bool) :
    (s.data = [] → parseZip s = 0 ∧ parseInt16 s = -1 ∧ parseU64 s = 0 ∧
      parseInt32 s = 0 ∧ parseDouble s = 0) ∧
    (scanIntText s.data = none → parseZip s = 0 ∧ parseInt16 s = -1 ∧
      parseU64 s = 0 ∧ parseInt32 s = 0) ∧
    (strtodScan s.data = StrtodOut.noConv → parseDouble s = 0) ∧
    (scanIntText s.data = some (false, v) → v < 2 ^ 64 →
      parseZip s = v % 2 ^ 32 ∧ parseU64 s = v % 2 ^ 64) ∧
    (scanIntText s.data = some (true, v) → v < 2 ^ 64 →
      parseZip s = ((2 ^ 64 - v) % 2 ^ 64) % 2 ^ 32 ∧
      parseU64 s = (2 ^ 64 - v) % 2 ^ 64) ∧
    (scanIntText s.data = some (false, v) → v < 2 ^ 63 →
      parseInt16 s = toInt16 (v : Int) ∧ parseInt32 s = toInt32 (v : Int)) ∧
    (scanIntText s.data = some (true, v) → v < 2 ^ 63 →
      parseInt16 s = toInt16 (-(v : Int)) ∧ parseInt32 s = toInt32 (-(v : Int))) ∧
    (scanIntText s.data = some (neg, v) → 2 ^ 64 ≤ v →
      parseZip s = 2 ^ 32 - 1 ∧ parseU64 s = 2 ^ 64 - 1) ∧
    (scanIntText s.data = some (neg, v) → 2 ^ 63 ≤ v →
      parseInt16 s = toInt16 (if neg then -(2 ^ 63 : Int) else (2 ^ 63 : Int) - 1) ∧
      parseInt32 s = toInt32 (if neg then -(2 ^ 63 : Int) else (2 ^ 63 : Int) - 1)) := by
  refine ⟨fun h => ?_, fun h => ?_, fun h => ?_, fun h hv => ?_, fun h hv => ?_,
    fun h hv => ?_, fun h hv => ?_, fun h hv => ?_, fun h hv => ?_⟩
  · simp [parseZip, parseInt16, parseU64, parseInt32, parseDouble, h]
  · by_cases he : s.data = [] <;>
      simp [parseZip, parseInt16, parseU64, parseInt32, he, h]
  · by_cases he : s.data = [] <;> simp [parseDouble, he, h]
  · have hne : s.data ≠ [] := by
      intro h0
      rw [h0] at h
      simp [scanIntText] at h
    simp only [parseZip, parseU64, if_neg hne, h, ulongOf,
      if_neg (show ¬ 2 ^ 64 ≤ v by omega), Bool.false_eq_true, ite_false]
    simp [Nat.mod_eq_of_lt hv]
    omega
  · have hne : s.data ≠ [] := by
      intro h0
      rw [h0] at h
      simp [scanIntText] at h
    simp only [parseZip, parseU64, if_neg hne, h, ulongOf]
    rw [if_neg (show ¬ 2 ^ 64 ≤ v by omega)]
    simp
  · have hne : s.data ≠ [] := by
      intro h0
      rw [h0] at h
      simp [scanIntText] at h
    simp only [parseInt16, parseInt32, if_neg hne, h, slongOf,
      if_neg (show ¬ 2 ^ 63 ≤ v by omega), Bool.false_eq_true, ite_false]
    simp
  · have hne : s.data ≠ [] := by
      intro h0
      rw [h0] at h
      simp [scanIntText] at h
    simp only [parseInt16, parseInt32, if_neg hne, h, slongOf]
    split_ifs
    all_goals first
      | exact ⟨rfl, rfl⟩
      | (exfalso; omega)
  · have hne : s.data ≠ [] := by
      intro h0
      rw [h0] at h
      simp [scanIntText] at h
    simp only [parseZip, parseU64, if_neg hne, h, ulongOf, if_pos hv]
    refine ⟨by norm_num, by norm_num⟩
  · have hne : s.data ≠ [] := by
      intro h0
      rw [h0] at h
      simp [scanIntText] at h
    cases neg <;>
      simp only [parseInt16, parseInt32, if_neg hne, h, slongOf] <;>
      split_ifs <;>
      exact ⟨rfl, rfl⟩

/-- Witness for C7: concrete defaults (`""`, `"abc"`, `"xy"`), exact
wraparound of both signs (`"4294967296"` to zip 0, `"70000"` to council
district 4464, `"-5"` to zip 4294967291, `"-70000"` to council district
-4464) and both 64-bit saturation boundaries (`ULONG_MAX` for a value
beyond `2^64`, `LONG_MIN` for a value at `-2^63`). -/
theorem claim_C7_numeric_conversions_witness :
    (("" : String).data = [] ∧ parseZip "" = 0 ∧ parseInt16 "" = -1 ∧
      parseU64 "" = 0 ∧ parseInt32 "" = 0 ∧ parseDouble "" = 0) ∧
    (scanIntText ("abc" : String).data = none ∧ parseZip "abc" = 0 ∧
      parseInt16 "abc" = -1 ∧ parseU64 "abc" = 0 ∧ parseInt32 "abc" = 0) ∧
    (strtodScan ("xy" : String).data = StrtodOut.noConv ∧ parseDouble "xy" = 0) ∧
    (scanIntText ("4294967296" : String).data = some (false, 4294967296) ∧
      4294967296 < 2 ^ 64 ∧
      parseZip "4294967296" = 4294967296 % 2 ^ 32 ∧
      parseU64 "4294967296" = 4294967296 % 2 ^ 64) ∧
    (scanIntText ("-5" : String).data = some (true, 5) ∧ 5 < 2 ^ 64 ∧
      parseZip "-5" = ((2 ^ 64 - 5) % 2 ^ 64) % 2 ^ 32 ∧
      parseU64 "-5" = (2 ^ 64 - 5) % 2 ^ 64) ∧
    (scanIntText ("70000" : String).data = some (false, 70000) ∧ 70000 < 2 ^ 63 ∧
      parseInt16 "70000" = toInt16 (70000 : Int) ∧
      parseInt32 "70000" = toInt32 (70000 : Int)) ∧
    (scanIntText ("-70000" : String).data = some (true, 70000) ∧ 70000 < 2 ^ 63 ∧
      parseInt16 "-70000" = toInt16 (-(70000 : Int)) ∧
      parseInt32 "-70000" = toInt32 (-(70000 : Int))) ∧
    (scanIntText ("18446744073709551616" : String).data =
        some (false, 18446744073709551616) ∧
      2 ^ 64 ≤ 18446744073709551616 ∧
      parseZip "18446744073709551616" = 2 ^ 32 - 1 ∧
      parseU64 "18446744073709551616" = 2 ^ 64 - 1) ∧
    (scanIntText ("-9223372036854775808" : String).data =
        some (true, 9223372036854775808) ∧
      2 ^ 63 ≤ 9223372036854775808 ∧
      parseInt16 "-9223372036854775808" =
        toInt16 (if true then -(2 ^ 63 : Int) else (2 ^ 63 : Int) - 1) ∧
      parseInt32 "-9223372036854775808" =
        toInt32 (if true then -(2 ^ 63 : Int) else (2 ^ 63 : Int) - 1)) := by
  refine ⟨⟨by decide, (claim_C7_numeric_conversions "" 0 false).1 (by decide)⟩,
    ⟨by decide, (claim_C7_numeric_conversions "abc" 0 false).2.1 (by decide)⟩,
    ⟨by decide, (claim_C7_numeric_conversions "xy" 0 false).2.2.1 (by decide)⟩,
    ⟨by decide, by decide,
      (claim_C7_numeric_conversions "4294967296" 4294967296 false).2.2.2.1
        (by decide) (by decide)⟩,
    ⟨by decide, by decide,
      (claim_C7_numeric_conversions "-5" 5 false).2.2.2.2.1 (by decide) (by decide)⟩,
    ⟨by decide, by decide,
      (claim_C7_numeric_conversions "70000" 70000 false).2.2.2.2.2.1
        (by decide) (by decide)⟩,
    ⟨by decide, by decide,
      (claim_C7_numeric_conversions "-70000" 70000 false).2.2.2.2.2.2.1
        (by decide) (by decide)⟩,
    ⟨by decide, by decide,
      (claim_C7_numeric_conversions "18446744073709551616" 18446744073709551616
        false).2.2.2.2.2.2.2.1 (by decide) (by decide)⟩,
    ⟨by decide, by decide,
      (claim_C7_numeric_conversions "-9223372036854775808" 9223372036854775808
        true).2.2.2.2.2.2.2.2 (by decide) (by decide)⟩⟩

/-! ## Claim C5: the parse/render round trip -/

/-- The zero-padded input grammar `MM/DD/YYYY HH:MM:SS` followed by a
meridiem token, as a character list. -/
def grammarChars (m d y h mi s : Nat) (mer : List Char) : List Char :=
  padChars 2 m ++ '/' :: (padChars 2 d ++ '/' :: (padChars 4 y ++ ' ' ::
    (padChars 2 h ++ ':' :: (padChars 2 mi ++ ':' :: (padChars 2 s ++ ' ' :: mer)))))

/-- An input string of the grammar `MM/DD/YYYY HH:MM:SS AM|PM`. -/
def grammarStr (m d y h mi s : Nat) (mer : String) : String :=
  (grammarChars m d y h mi s mer.data).asString

/-- The 12-hour to 24-hour rule exactly as the spec words it:
`12 AM → 0`, `12 PM → 12`, other AM hours unchanged, other PM hours
`+12`. -/
def hour24Spec (h : Nat) (mer : String) : Nat :=
  if mer = "PM" then (if h = 12 then 12 else h + 12)
  else (if h = 12 then 0 else h)

/-- The canonical zero-padded rendering `YYYY-MM-DD HH:MM:SS`. -/
def canonicalRender (y m d h mi s : Nat) : String :=
  (padChars 4 y ++ '-' :: padChars 2 m ++ '-' :: padChars 2 d ++
    ' ' :: padChars 2 h ++ ':' :: padChars 2 mi ++ ':' :: padChars 2 s).asString

theorem data_asString (l : List Char) : (l.asString).data = l := rfl

theorem takeWhile_eq_self_of_forall {p : Char → Bool} (l : List Char)
    (h : ∀ x ∈ l, p x = true) : l.takeWhile p = l := by
  induction l with
  | nil => rfl
  | cons a t ih =>
    have ha : p a = true := h a (by simp)
    simp only [List.takeWhile_cons, ha, if_true]
    rw [ih fun x hx => h x (by simp [hx])]

theorem matchLit_self (c : Char) (rest : List Char) :
    matchLit c (c :: rest) = some rest := by
  simp [matchLit]

theorem scanU_pad_sep (w n : Nat) (c : Char) (rest : List Char)
    (hw : 1 ≤ w) (hn : n < 10 ^ w) (hc : isDigitC c = false) (hn32 : n < 2 ^ 32) :
    scanU (padChars w n ++ c :: rest) = some (n, c :: rest) := by
  have h := scanU_spaces_digits [] (padChars w n) c rest (by simp)
    (padChars_all_digits w n) (padChars_ne_nil hw hn) hc
  rw [List.nil_append] at h
  rw [h, digitsToNat_padChars, Nat.mod_eq_of_lt hn32]

theorem scanU_sp_pad_sep (w n : Nat) (c : Char) (rest : List Char)
    (hw : 1 ≤ w) (hn : n < 10 ^ w) (hc : isDigitC c = false) (hn32 : n < 2 ^ 32) :
    scanU (' ' :: (padChars w n ++ c :: rest)) = some (n, c :: rest) := by
  have h := scanU_spaces_digits [' '] (padChars w n) c rest (by decide)
    (padChars_all_digits w n) (padChars_ne_nil hw hn) hc
  rw [List.singleton_append] at h
  rw [h, digitsToNat_padChars, Nat.mod_eq_of_lt hn32]

theorem scanTok2_sp (mer : List Char) (hne : mer ≠ [])
    (hns : ∀ x ∈ mer, cIsSpace x = false) (hlen : mer.length ≤ 2) :
    scanTok2 (' ' :: mer) = some (mer, []) := by
  have hdrop : List.dropWhile cIsSpace (' ' :: mer) = mer := by
    rw [show (' ' :: mer) = [' '] ++ mer from rfl,
      dropWhile_append_of_forall [' '] mer (by decide)]
    cases mer with
    | nil => rfl
    | cons a t =>
      exact dropWhile_eq_self_of_headD (by simp) (by simpa using hns a (by simp))
  have htake : mer.takeWhile (fun c => !(cIsSpace c)) = mer :=
    takeWhile_eq_self_of_forall mer (fun x hx => by simp [hns x hx])
  unfold scanTok2
  simp only [hdrop, htake, List.take_of_length_le hlen, if_neg hne]
  rw [List.drop_of_length_le (le_refl mer.length)]

/-- The full scan succeeds on every grammar string and returns the seven
components verbatim. -/
theorem scanDT_grammar (m d y h mi s : Nat) (mer : List Char)
    (hm : m < 100) (hd : d < 100) (hy : y < 10000) (hh : h < 100)
    (hmi : mi < 100) (hs : s < 100) (hne : mer ≠ [])
    (hns : ∀ x ∈ mer, cIsSpace x = false) (hlen : mer.length ≤ 2) :
    scanDT (grammarChars m d y h mi s mer) = some ⟨m, d, y, h, mi, s, mer⟩ := by
  unfold grammarChars
  set R6 := padChars 2 s ++ ' ' :: mer with hR6
  set R5 := padChars 2 mi ++ ':' :: R6 with hR5
  set R4 := padChars 2 h ++ ':' :: R5 with hR4
  set R3 := padChars 4 y ++ ' ' :: R4 with hR3
  set R2 := padChars 2 d ++ '/' :: R3 with hR2
  have e1 : scanU (padChars 2 m ++ '/' :: R2) = some (m, '/' :: R2) :=
    scanU_pad_sep 2 m '/' R2 (by norm_num) (by omega) (by decide) (by omega)
  have e2 : matchLit '/' ('/' :: R2) = some R2 := matchLit_self '/' R2
  have e3 : scanU R2 = some (d, '/' :: R3) := by
    rw [hR2]
    exact scanU_pad_sep 2 d '/' R3 (by norm_num) (by omega) (by decide) (by omega)
  have e4 : matchLit '/' ('/' :: R3) = some R3 := matchLit_self '/' R3
  have e5 : scanU R3 = some (y, ' ' :: R4) := by
    rw [hR3]
    exact scanU_pad_sep 4 y ' ' R4 (by norm_num) (by omega) (by decide) (by omega)
  have e6 : scanU (' ' :: R4) = some (h, ':' :: R5) := by
    rw [hR4]
    exact scanU_sp_pad_sep 2 h ':' R5 (by norm_num) (by omega) (by decide) (by omega)
  have e7 : matchLit ':' (':' :: R5) = some R5 := matchLit_self ':' R5
  have e8 : scanU R5 = some (mi, ':' :: R6) := by
    rw [hR5]
    exact scanU_pad_sep 2 mi ':' R6 (by norm_num) (by omega) (by decide) (by omega)
  have e9 : matchLit ':' (':' :: R6) = some R6 := matchLit_self ':' R6
  have e10 : scanU R6 = some (s, ' ' :: mer) := by
    rw [hR6]
    exact scanU_pad_sep 2 s ' ' mer (by norm_num) (by omega) (by decide) (by omega)
  have e11 : scanTok2 (' ' :: mer) = some (mer, []) := scanTok2_sp mer hne hns hlen
  simp only [scanDT, e1, Option.some_bind, e2, e3, e4, e5, e6, e7, e8, e9, e10, e11]

theorem to24h_spec_am (h : Nat) : to24h h false = hour24Spec h "AM" := by
  unfold to24h hour24Spec
  rw [if_neg (show ¬ ("AM" : String) = "PM" by decide)]
  simp

theorem to24h_spec_pm (h : Nat) (hh : h ≤ 12) : to24h h true = hour24Spec h "PM" := by
  unfold to24h hour24Spec
  rw [if_pos rfl]
  by_cases h12 : h = 12
  · simp [h12]
  · simp [h12, Nat.mod_eq_of_lt (show h + 12 < 256 by omega)]

/-- Parsing a grammar string yields the seven components with
the hour put through `to24h`. -/
theorem parse_grammar_eq (m d y h mi s : Nat) (mer : List Char) (pm : Bool)
    (hm : m ≤ 99) (hd : d ≤ 99) (hy : y ≤ 9999) (hh : h ≤ 99)
    (hmi : mi ≤ 99) (hs : s ≤ 99) (hne : mer ≠ [])
    (hns : ∀ x ∈ mer, cIsSpace x = false) (hlen2 : mer.length ≤ 2)
    (hpm : (mer.headD ' ' == 'P' || mer.headD ' ' == 'p') = pm) :
    DateTime.parse ((grammarChars m d y h mi s mer).asString) =
      ⟨y, m, d, to24h h pm, mi, s, true⟩ := by
  have hscan := scanDT_grammar m d y h mi s mer (by omega) (by omega) (by omega)
    (by omega) (by omega) (by omega) hne hns hlen2
  have pm2 : (padChars 2 m).length = 2 := padChars_length (by omega)
  have pd2 : (padChars 2 d).length = 2 := padChars_length (by omega)
  have py2 : (padChars 4 y).length = 4 := padChars_length (by omega)
  have ph2 : (padChars 2 h).length = 2 := padChars_length (by omega)
  have pmi2 : (padChars 2 mi).length = 2 := padChars_length (by omega)
  have ps2 : (padChars 2 s).length = 2 := padChars_length (by omega)
  have hlen11 : ¬ ((grammarChars m d y h mi s mer).asString).data.length < 11 := by
    rw [data_asString]
    simp [grammarChars, List.length_append, pm2, pd2, py2, ph2, pmi2, ps2]
    omega
  unfold DateTime.parse
  rw [if_neg hlen11, data_asString, hscan]
  show ({ year := y % 65536, month := m % 256, day := d % 256,
          hour := to24h (h % 256) (mer.headD ' ' == 'P' || mer.headD ' ' == 'p'),
          minute := mi % 256, second := s % 256, valid := true } : DateTime) = _
  rw [hpm, Nat.mod_eq_of_lt (show y < 65536 by omega),
    Nat.mod_eq_of_lt (show m < 256 by omega), Nat.mod_eq_of_lt (show d < 256 by omega),
    Nat.mod_eq_of_lt (show h < 256 by omega), Nat.mod_eq_of_lt (show mi < 256 by omega),
    Nat.mod_eq_of_lt (show s < 256 by omega)]

/-- Rendering a valid value with two-digit fields and a
four-digit year is exactly the canonical zero-padded rendering (the output
is 19 characters, so the 20-byte `snprintf` buffer does not truncate). -/
theorem toString_fields (y m d h mi s : Nat)
    (hy : y ≤ 9999) (hm : m ≤ 99) (hd : d ≤ 99) (hh : h ≤ 99)
    (hmi : mi ≤ 99) (hs : s ≤ 99) :
    DateTime.toString ⟨y, m, d, h, mi, s, true⟩ = canonicalRender y m d h mi s := by
  have pm2 : (padChars 2 m).length = 2 := padChars_length (by omega)
  have pd2 : (padChars 2 d).length = 2 := padChars_length (by omega)
  have py2 : (padChars 4 y).length = 4 := padChars_length (by omega)
  have ph2 : (padChars 2 h).length = 2 := padChars_length (by omega)
  have pmi2 : (padChars 2 mi).length = 2 := padChars_length (by omega)
  have ps2 : (padChars 2 s).length = 2 := padChars_length (by omega)
  have hL : (padChars 4 y ++ '-' :: padChars 2 m ++ '-' :: padChars 2 d ++
      ' ' :: padChars 2 h ++ ':' :: padChars 2 mi ++ ':' :: padChars 2 s).length = 19 := by
    simp [List.length_append, py2, pm2, pd2, ph2, pmi2, ps2]
  show ((padChars 4 y ++ '-' :: padChars 2 m ++ '-' :: padChars 2 d ++
      ' ' :: padChars 2 h ++ ':' :: padChars 2 mi ++ ':' :: padChars 2 s).take 19).asString =
    canonicalRender y m d h mi s
  rw [List.take_of_length_le (le_of_eq hL)]
  rfl

/-- C5: for every grammar input `MM/DD/YYYY HH:MM:SS AM|PM` whose seven
components are in range, parsing yields a valid value and rendering it
produces the canonical zero-padded `YYYY-MM-DD HH:MM:SS` with the hour
converted by the rule 12 AM → 0, 12 PM → 12, other AM unchanged, other
PM +12. -/
theorem claim_C5_parse_render_roundtrip (m d y h mi s : Nat) (mer : String)
    (hm1 : 1 ≤ m) (hm2 : m ≤ 12) (hd1 : 1 ≤ d) (hd2 : d ≤ 31)
    (hy : y ≤ 9999) (hh1 : 1 ≤ h) (hh2 : h ≤ 12) (hmi : mi ≤ 59) (hs : s ≤ 59)
    (hmer : mer = "AM" ∨ mer = "PM") :
    (DateTime.parse (grammarStr m d y h mi s mer)).valid = true ∧
    (DateTime.parse (grammarStr m d y h mi s mer)).toString =
      canonicalRender y m d (hour24Spec h mer) mi s := by
  rcases hmer with rfl | rfl
  · have hp : DateTime.parse (grammarStr m d y h mi s "AM") =
        ⟨y, m, d, to24h h false, mi, s, true⟩ :=
      parse_grammar_eq m d y h mi s ['A', 'M'] false (by omega) (by omega) (by omega)
        (by omega) (by omega) (by omega) (by decide) (by decide) (by decide) (by decide)
    have hb : to24h h false ≤ 99 := by
      unfold to24h
      split <;> split <;> omega
    refine ⟨by rw [hp], ?_⟩
    rw [hp, toString_fields y m d (to24h h false) mi s hy (by omega) (by omega) hb
      (by omega) (by omega), to24h_spec_am]
  · have hp : DateTime.parse (grammarStr m d y h mi s "PM") =
        ⟨y, m, d, to24h h true, mi, s, true⟩ :=
      parse_grammar_eq m d y h mi s ['P', 'M'] true (by omega) (by omega) (by omega)
        (by omega) (by omega) (by omega) (by decide) (by decide) (by decide) (by decide)
    have hb : to24h h true ≤ 99 := by
      unfold to24h
      split <;> split <;> omega
    refine ⟨by rw [hp], ?_⟩
    rw [hp, toString_fields y m d (to24h h true) mi s hy (by omega) (by omega) hb
      (by omega) (by omega), to24h_spec_pm h hh2]

/-- Witness for C5: `"01/01/2015 12:00:00 AM"` parses to a valid value and
renders as `"2015-01-01 00:00:00"`. -/
theorem claim_C5_parse_render_roundtrip_witness :
    (1 ≤ 1 ∧ 1 ≤ 12 ∧ 1 ≤ 1 ∧ 1 ≤ 31 ∧ 2015 ≤ 9999 ∧ 1 ≤ 12 ∧ 12 ≤ 12 ∧
      0 ≤ 59 ∧ 0 ≤ 59 ∧ (("AM" : String) = "AM" ∨ ("AM" : String) = "PM")) ∧
    grammarStr 1 1 2015 12 0 0 "AM" = "01/01/2015 12:00:00 AM" ∧
    canonicalRender 2015 1 1 (hour24Spec 12 "AM") 0 0 = "2015-01-01 00:00:00" ∧
    ((DateTime.parse (grammarStr 1 1 2015 12 0 0 "AM")).valid = true ∧
      (DateTime.parse (grammarStr 1 1 2015 12 0 0 "AM")).toString =
        canonicalRender 2015 1 1 (hour24Spec 12 "AM") 0 0) :=
  ⟨⟨by omega, by omega, by omega, by omega, by omega, by omega, by omega,
    by omega, by omega, Or.inl rfl⟩, by decide, by decide,
    claim_C5_parse_render_roundtrip 1 1 2015 12 0 0 "AM" (by omega) (by omega)
      (by omega) (by omega) (by omega) (by omega) (by omega) (by omega) (by omega)
      (Or.inl rfl)⟩

end NYC311
